import Mathlib

/-!
Verification of the snookerApp synchronization and reconciliation engine.

This file gives a shallow embedding of the engine implemented in
`oneFourSeven/data_savers.py`, `oneFourSeven/data_mappers.py` and the
maintenance commands (`cleanup_duplicate_matches.py`,
`auto_live_monitor.py`, `fix_score_inconsistencies.py`), and proves or
refutes the specification claims about it.

Conventions of the embedding:
* Python integers are `Int` (they are unbounded in the source).
* A nullable database column is `Option Int`.
* A prepared-defaults dictionary entry is `Option (Option Int)`:
  `none` means the key is absent from the dictionary, `some none` means
  the key is present with value `None` (an explicit null).
* Timestamps are minutes, dates are day numbers (one day = 1440 minutes).
-/

/-- Stored `MatchesOfAnEvent` row, restricted to the columns the engine
reads and writes.  `id` is the storage primary key (Django auto id). -/
structure MatchRec where
  id : Int
  eventID : Int
  round : Int
  number : Int
  player1ID : Option Int
  player2ID : Option Int
  score1 : Option Int
  score2 : Option Int
  winnerID : Option Int
  status : Option Int
  scheduledDate : Option Int
  deriving DecidableEq

/-- Prepared defaults dictionary for one match record, as produced by
`prepare_data_for_model` and consumed by `_should_skip_match_update` and
`update_or_create`.  Outer `none` = key absent, `some none` = explicit
null value. -/
structure MatchPayload where
  player1ID : Option (Option Int)
  player2ID : Option (Option Int)
  score1 : Option (Option Int)
  score2 : Option (Option Int)
  winnerID : Option (Option Int)
  status : Option (Option Int)
  scheduledDate : Option (Option Int)
  deriving DecidableEq

/-- An empty defaults dictionary (no keys present). -/
def emptyPayload : MatchPayload :=
  { player1ID := none, player2ID := none, score1 := none, score2 := none,
    winnerID := none, status := none, scheduledDate := none }

/-- Python `dict.get(key)`: returns `None` both when the key is absent and
when it is stored as `None`. -/
def pget (f : Option (Option Int)) : Option Int :=
  f.getD none

/-- Rule 1 of `_should_skip_match_update`, existing side:
`existing_player1_id is not None and existing_player1_id != 376 and
existing_player2_id is not None and existing_player2_id != 376`. -/
def existingHasRealPlayers (e : MatchRec) : Bool :=
  e.player1ID.isSome && !(e.player1ID == some 376) &&
  e.player2ID.isSome && !(e.player2ID == some 376)

/-- Rule 1 of `_should_skip_match_update`, candidate side:
`new_player1_id == 376 or new_player2_id == 376` (a `None` value compares
unequal to `376`, exactly as in Python). -/
def newHasTBD (c : MatchPayload) : Bool :=
  pget c.player1ID == some 376 || pget c.player2ID == some 376

/-- Rule 3 of `_should_skip_match_update`, existing side:
`Score1 is not None and Score2 is not None and (Score1 > 0 or Score2 > 0)`. -/
def existingHasScores (e : MatchRec) : Bool :=
  match e.score1, e.score2 with
  | some a, some b => decide (0 < a) || decide (0 < b)
  | _, _ => false

/-- Rule 3 of `_should_skip_match_update`, candidate side:
`new_score1 is None or new_score2 is None or (new_score1 == 0 and
new_score2 == 0)`. -/
def newHasNoScores (c : MatchPayload) : Bool :=
  pget c.score1 == none || pget c.score2 == none ||
  (pget c.score1 == some 0 && pget c.score2 == some 0)

/-- The Anti-Regression Guard `_should_skip_match_update` from
`data_savers.py` (lines 379-459): three skip rules tried in order, with
status codes read as in the guard (0 = upcoming, 3 = finished). -/
def shouldSkipMatchUpdate (e : MatchRec) (c : MatchPayload) : Bool :=
  if existingHasRealPlayers e && newHasTBD c then true
  else if e.status == some 3 && pget c.status == some 0 then true
  else if existingHasScores e && newHasNoScores c then true
  else false

/-- The update half of `update_or_create` on an existing row: exactly the
keys present in the defaults dictionary are assigned, the rest keep their
stored values. -/
def applyPayload (e : MatchRec) (c : MatchPayload) : MatchRec :=
  { e with
    player1ID := c.player1ID.getD e.player1ID,
    player2ID := c.player2ID.getD e.player2ID,
    score1 := c.score1.getD e.score1,
    score2 := c.score2.getD e.score2,
    winnerID := c.winnerID.getD e.winnerID,
    status := c.status.getD e.status,
    scheduledDate := c.scheduledDate.getD e.scheduledDate }

/-- The create half of `update_or_create`: absent columns get the model
field defaults of `MatchesOfAnEvent` (`Status` has `default=3`; the other
embedded columns default to null).  The storage id of a fresh row is not
used by the reconciliation logic and is modelled as `0`. -/
def createMatch (ev rnd num : Int) (c : MatchPayload) : MatchRec :=
  { id := 0, eventID := ev, round := rnd, number := num,
    player1ID := c.player1ID.getD none,
    player2ID := c.player2ID.getD none,
    score1 := c.score1.getD none,
    score2 := c.score2.getD none,
    winnerID := c.winnerID.getD none,
    status := c.status.getD (some 3),
    scheduledDate := c.scheduledDate.getD none }

/-- One guarded reconcile step of `save_matches` on a row that already
exists: consult the Anti-Regression Guard, then either keep the stored
row or apply the candidate payload. -/
def applyGuarded (e : MatchRec) (c : MatchPayload) : MatchRec :=
  if shouldSkipMatchUpdate e c then e else applyPayload e c

/-- The TBD test used by the cleanup command and by monotonicity
statements: `Player1ID == 376 or Player2ID == 376`. -/
def matchHasTBDPlayer (m : MatchRec) : Bool :=
  m.player1ID == some 376 || m.player2ID == some 376

/-- Status informativeness level named by the spec:
Scheduled (0) < Running (1) / OnBreak (2) < Finished (3). -/
def statusLevel : Option Int → Nat
  | some 1 => 1
  | some 2 => 1
  | some 3 => 2
  | _ => 0

/-! ### Claim C2: the guard decision function -/

/-- Rule 3 existing-side condition exactly as claim C2 words it: the
existing record has non-zero scores for both participants. -/
def claimedExistingNonZeroScores (e : MatchRec) : Bool :=
  e.score1.isSome && !(e.score1 == some 0) &&
  e.score2.isSome && !(e.score2 == some 0)

/-- The guard as claim C2 states it (rules in the stated precedence,
with rule 3 reading the existing side as non-zero scores for both
participants).  This definition follows the wording of the claim, to be
compared with `shouldSkipMatchUpdate` from the source. -/
def claimedGuardC2 (e : MatchRec) (c : MatchPayload) : Bool :=
  if existingHasRealPlayers e && newHasTBD c then true
  else if e.status == some 3 && pget c.status == some 0 then true
  else if claimedExistingNonZeroScores e && newHasNoScores c then true
  else false

/-- Existing row whose scores are recorded as 0 and 5: one score is zero,
so claim C2 says rule 3 does not apply, but the source skips. -/
def guardExC2 : MatchRec :=
  { id := 1, eventID := 100, round := 1, number := 1,
    player1ID := some 11, player2ID := some 22,
    score1 := some 0, score2 := some 5,
    winnerID := none, status := some 1, scheduledDate := none }

/-- Candidate payload with running status, real players and no score keys. -/
def guardPayloadC2 : MatchPayload :=
  { player1ID := some (some 11), player2ID := some (some 22),
    score1 := none, score2 := none,
    winnerID := none, status := some (some 1), scheduledDate := none }

/-- Claim C2 counterexample: on a stored record with scores 0 and 5 and a
candidate that carries no scores, the source guard skips, while the rule
set stated in the claim (existing scores non-zero for both participants)
returns proceed.  So the claimed characterization is not the guard. -/
theorem guard_rule_three_differs_from_claim :
    shouldSkipMatchUpdate guardExC2 guardPayloadC2 = true ∧
    claimedGuardC2 guardExC2 guardPayloadC2 = false := by
  decide

/-- The guard as it actually is, written in the structure of the claim:
three rules in precedence, where rule 3 reads the existing side as
scores recorded for both participants with at least one strictly
positive. -/
def amendedGuardC2 (e : MatchRec) (c : MatchPayload) : Bool :=
  (existingHasRealPlayers e && newHasTBD c) ||
  (e.status == some 3 && pget c.status == some 0) ||
  ((e.score1.isSome && e.score2.isSome &&
    (decide (0 < e.score1.getD 0) || decide (0 < e.score2.getD 0))) &&
   newHasNoScores c)

/-- Claim C2 (amended): the guard skips exactly when one of the three
rules fires, where rule 3 requires the existing record to carry scores
for both participants with at least one strictly positive (not non-zero
scores for both); in every other case it proceeds. -/
theorem guard_characterization_amended (e : MatchRec) (c : MatchPayload) :
    shouldSkipMatchUpdate e c = amendedGuardC2 e c := by
  unfold shouldSkipMatchUpdate amendedGuardC2 existingHasScores
  cases h1 : existingHasRealPlayers e && newHasTBD c <;>
    cases h2 : e.status == some 3 && pget c.status == some 0 <;>
      cases hs1 : e.score1 <;> cases hs2 : e.score2 <;> simp [hs1, hs2]

/-! ### Claim C1: commutativity of guarded updates -/

/-- A skipped guarded update leaves the stored row unchanged. -/
theorem applyGuarded_of_skip {e : MatchRec} {c : MatchPayload}
    (h : shouldSkipMatchUpdate e c = true) : applyGuarded e c = e := by
  unfold applyGuarded
  rw [if_pos h]

/-- A non-skipped guarded update applies the payload. -/
theorem applyGuarded_of_proceed {e : MatchRec} {c : MatchPayload}
    (h : shouldSkipMatchUpdate e c = false) : applyGuarded e c = applyPayload e c := by
  unfold applyGuarded
  rw [if_neg (by rw [h]; exact Bool.false_ne_true)]

/-- Stored row with one real participant and an open draw slot. -/
def commutExisting : MatchRec :=
  { id := 1, eventID := 100, round := 1, number := 1,
    player1ID := some 1, player2ID := none, score1 := none, score2 := none,
    winnerID := none, status := some 0, scheduledDate := none }

/-- Stale snapshot payload writing the TBD sentinel into slot 1. -/
def commutPayloadA : MatchPayload :=
  { emptyPayload with player1ID := some (some 376) }

/-- Fresh payload filling draw slot 2 with a real player. -/
def commutPayloadB : MatchPayload :=
  { emptyPayload with player2ID := some (some 2) }

/-- Claim C1 counterexample: replaying the stale-sentinel payload and the
draw-filling payload in the two orders ends in different stored records
(sentinel then fill keeps the sentinel; fill then sentinel blocks the
sentinel), so the guarded update is not commutative. -/
theorem guarded_update_not_commutative :
    applyGuarded (applyGuarded commutExisting commutPayloadA) commutPayloadB ≠
    applyGuarded (applyGuarded commutExisting commutPayloadB) commutPayloadA := by
  decide

/-- Claim C1 (amended): the two application orders agree whenever the
guard skips one of the two payloads both against the original stored row
and against the row updated with the other payload; both orders then end
in the state produced by the other payload alone. -/
theorem guarded_update_commutes_when_skipped_in_both_orders
    (e : MatchRec) (a b : MatchPayload)
    (h1 : shouldSkipMatchUpdate e a = true)
    (h2 : shouldSkipMatchUpdate (applyGuarded e b) a = true) :
    applyGuarded (applyGuarded e a) b = applyGuarded (applyGuarded e b) a := by
  rw [applyGuarded_of_skip h1, applyGuarded_of_skip h2]

/-- Witness for the amended claim C1 at a concrete triple: a scored
record, a stale sentinel payload and an empty payload. -/
theorem guarded_update_commutes_witness :
    applyGuarded (applyGuarded guardExC2 commutPayloadA) emptyPayload =
    applyGuarded (applyGuarded guardExC2 emptyPayload) commutPayloadA :=
  guarded_update_commutes_when_skipped_in_both_orders guardExC2 commutPayloadA
    emptyPayload (by decide) (by decide)

/-! ### Claim C3: monotonic information over reconcile sequences -/

/-- When the guard lets an update through, its first rule did not fire. -/
theorem rule_one_false_of_proceed {e : MatchRec} {c : MatchPayload}
    (h : shouldSkipMatchUpdate e c = false) :
    (existingHasRealPlayers e && newHasTBD c) = false := by
  cases hr : existingHasRealPlayers e && newHasTBD c
  · rfl
  · exfalso
    unfold shouldSkipMatchUpdate at h
    rw [hr] at h
    simp at h

/-- When the guard lets an update through, its second rule did not fire. -/
theorem rule_two_false_of_proceed {e : MatchRec} {c : MatchPayload}
    (h : shouldSkipMatchUpdate e c = false) :
    (e.status == some 3 && pget c.status == some 0) = false := by
  cases hr : e.status == some 3 && pget c.status == some 0
  · rfl
  · exfalso
    have : shouldSkipMatchUpdate e c = true := by
      unfold shouldSkipMatchUpdate
      cases h1 : existingHasRealPlayers e && newHasTBD c <;> simp [hr]
    rw [this] at h
    exact Bool.noConfusion h

/-- Stored record: finished with real players and scores 4-2. -/
def monoExisting : MatchRec :=
  { id := 1, eventID := 100, round := 1, number := 1,
    player1ID := some 1, player2ID := some 2,
    score1 := some 4, score2 := some 2,
    winnerID := some 1, status := some 3, scheduledDate := none }

/-- Candidate payload: the same real players and scores but status
running; the guard lets it through. -/
def monoPayload : MatchPayload :=
  { player1ID := some (some 1), player2ID := some (some 2),
    score1 := some (some 4), score2 := some (some 2),
    winnerID := some (some 1), status := some (some 1), scheduledDate := none }

/-- Claim C3 counterexample: a reconcile call on a Finished stored record
with a Running candidate is not skipped and lowers the stored
status-informativeness level from Finished to Running, so the level is
not non-decreasing over reconcile sequences. -/
theorem status_level_can_decrease :
    shouldSkipMatchUpdate monoExisting monoPayload = false ∧
    statusLevel (applyGuarded monoExisting monoPayload).status <
      statusLevel monoExisting.status := by
  decide

/-- Claim C3 (amended): monotonicity holds only step-wise for the two
guarded transitions.  A single guarded update never moves a record with
two real participants to one carrying the TBD sentinel, and never moves a
Finished (3) status to Scheduled (0).  It can still lower the
informativeness levels in other ways (Finished to Running as shown by the
counterexample, or erasing a participant to an explicit null), so the
levels are not globally non-decreasing over call sequences. -/
theorem guarded_update_stepwise_monotonicity (e : MatchRec) (c : MatchPayload) :
    (existingHasRealPlayers e = true →
      matchHasTBDPlayer (applyGuarded e c) = false) ∧
    (e.status = some 3 → (applyGuarded e c).status ≠ some 0) := by
  constructor
  · intro hreal
    have hpe : (e.player1ID == some 376) = false ∧ (e.player2ID == some 376) = false := by
      unfold existingHasRealPlayers at hreal
      rw [Bool.and_eq_true, Bool.and_eq_true, Bool.and_eq_true] at hreal
      exact ⟨by simpa using hreal.1.1.2, by simpa using hreal.2⟩
    cases hskip : shouldSkipMatchUpdate e c
    · rw [applyGuarded_of_proceed hskip]
      have htbd : newHasTBD c = false := by
        have h1 := rule_one_false_of_proceed hskip
        rw [hreal] at h1
        simpa using h1
      unfold newHasTBD at htbd
      rw [Bool.or_eq_false_iff] at htbd
      unfold matchHasTBDPlayer applyPayload
      rw [Bool.or_eq_false_iff]
      constructor
      · cases hc : c.player1ID with
        | none => simpa using hpe.1
        | some v =>
          have := htbd.1
          rw [pget, hc] at this
          simpa using this
      · cases hc : c.player2ID with
        | none => simpa using hpe.2
        | some v =>
          have := htbd.2
          rw [pget, hc] at this
          simpa using this
    · rw [applyGuarded_of_skip hskip]
      unfold matchHasTBDPlayer
      rw [Bool.or_eq_false_iff]
      exact hpe
  · intro hfin
    cases hskip : shouldSkipMatchUpdate e c
    · rw [applyGuarded_of_proceed hskip]
      have h2 := rule_two_false_of_proceed hskip
      rw [hfin] at h2
      simp only [beq_self_eq_true, Bool.true_and] at h2
      unfold applyPayload
      cases hc : c.status with
      | none => simp [hfin]
      | some v =>
        rw [pget, hc] at h2
        simpa using h2
    · rw [applyGuarded_of_skip hskip, hfin]
      simp

/-- Witness for the amended claim C3 at the concrete finished record and
running candidate used above. -/
theorem guarded_update_stepwise_monotonicity_witness :
    matchHasTBDPlayer (applyGuarded monoExisting monoPayload) = false ∧
    (applyGuarded monoExisting monoPayload).status ≠ some 0 :=
  ⟨(guarded_update_stepwise_monotonicity monoExisting monoPayload).1 (by decide),
   (guarded_update_stepwise_monotonicity monoExisting monoPayload).2 (by decide)⟩

/-! ### The `save_matches` batch loop (`data_savers.py` lines 249-330) -/

/-- One incoming raw match record: logical-key components as delivered by
the API (possibly missing) and the prepared defaults payload.
`raisesError` models an unexpected exception being raised while this
record is processed inside the transaction (claim C5). -/
structure InRecord where
  roundVal : Option Int
  numberVal : Option Int
  payload : MatchPayload
  raisesError : Bool
  deriving DecidableEq

/-- Logical-key extraction of `save_matches`: both Round and Number must
be present, otherwise the record is skipped. -/
def keyOf (r : InRecord) : Option (Int × Int) :=
  match r.roundVal, r.numberVal with
  | some a, some b => some (a, b)
  | _, _ => none

/-- The stored matches of one event, keyed by the logical key
(Round, Number): the `unique_together` constraint makes the lookup
`filter(Event, Round, Number).first()` a map lookup. -/
def MatchStore : Type := Int × Int → Option MatchRec

/-- Outcome tally of one `save_matches` call. -/
structure SaveStats where
  created : Nat
  updated : Nat
  skipped : Nat
  failed : Nat
  deriving DecidableEq

/-- Tally at the start of a batch. -/
def initStats : SaveStats :=
  { created := 0, updated := 0, skipped := 0, failed := 0 }

/-- Store update at one logical key. -/
def storePut (σ : MatchStore) (k : Int × Int) (m : MatchRec) : MatchStore :=
  fun k2 => if k2 = k then some m else σ k2

/-- The body of the `save_matches` loop for one record: validate the
logical key, fetch the existing row, consult the Anti-Regression Guard,
then create or update, tallying the outcome. -/
def stepRecord (ev : Int) (acc : MatchStore × SaveStats) (r : InRecord) :
    MatchStore × SaveStats :=
  match keyOf r with
  | none => (acc.1, { acc.2 with skipped := acc.2.skipped + 1 })
  | some k =>
    match acc.1 k with
    | none =>
      (storePut acc.1 k (createMatch ev k.1 k.2 r.payload),
       { acc.2 with created := acc.2.created + 1 })
    | some e =>
      if shouldSkipMatchUpdate e r.payload then
        (acc.1, { acc.2 with skipped := acc.2.skipped + 1 })
      else
        (storePut acc.1 k (applyPayload e r.payload),
         { acc.2 with updated := acc.2.updated + 1 })

/-- The `save_matches` batch loop on the happy path (no exception raised):
fold the per-record step over the batch, starting from a fresh tally. -/
def saveMatches (ev : Int) (σ : MatchStore) (rs : List InRecord) :
    MatchStore × SaveStats :=
  rs.foldl (stepRecord ev) (σ, initStats)

/-- The loop inside `transaction.atomic()`: processing stops with an
exception carrying the tally so far as soon as a record raises. -/
def saveMatchesTxAux (ev : Int) (σ : MatchStore) (st : SaveStats) :
    List InRecord → Except SaveStats (MatchStore × SaveStats)
  | [] => .ok (σ, st)
  | r :: rs =>
    if r.raisesError then .error st
    else
      let acc := stepRecord ev (σ, st) r
      saveMatchesTxAux ev acc.1 acc.2 rs

/-- `save_matches` with its transaction and exception handler: on an
exception the transaction rolls back (the pre-batch store is kept) and
the handler rewrites the tally to `failed = len(matches_data) -
stats["skipped"]`, `created = 0`, `updated = 0`. -/
def saveMatchesTx (ev : Int) (σ : MatchStore) (rs : List InRecord) :
    MatchStore × SaveStats :=
  match saveMatchesTxAux ev σ initStats rs with
  | .ok res => res
  | .error st =>
      (σ, { created := 0, updated := 0, skipped := st.skipped,
            failed := rs.length - st.skipped })

/-! ### Claim C4: idempotence of the batch loop -/

/-- Helper: reading a dictionary entry with its own read as fallback. -/
theorem getD_getD {α : Type} (o : Option α) (d : α) :
    o.getD (o.getD d) = o.getD d := by
  cases o <;> rfl

/-- Applying the same payload twice in a row changes nothing the second
time: the second application overwrites each provided key with the value
it already holds. -/
theorem applyPayload_applyPayload (e : MatchRec) (p : MatchPayload) :
    applyPayload (applyPayload e p) p = applyPayload e p := by
  unfold applyPayload
  simp [getD_getD]

/-- Applying a payload to the row just created from it changes nothing. -/
theorem applyPayload_createMatch (ev a b : Int) (p : MatchPayload) :
    applyPayload (createMatch ev a b p) p = createMatch ev a b p := by
  unfold applyPayload createMatch
  simp [getD_getD]

/-- The per-key transition of the loop body: what one record with logical
key `k` does to the stored row at `k`. -/
def stepExisting (ev : Int) (k : Int × Int) (cur : Option MatchRec)
    (p : MatchPayload) : Option MatchRec :=
  match cur with
  | none => some (createMatch ev k.1 k.2 p)
  | some e =>
    if shouldSkipMatchUpdate e p then some e else some (applyPayload e p)

/-- The per-key transition is idempotent. -/
theorem stepExisting_idem (ev : Int) (k : Int × Int) (cur : Option MatchRec)
    (p : MatchPayload) :
    stepExisting ev k (stepExisting ev k cur p) p = stepExisting ev k cur p := by
  cases cur with
  | none =>
    show stepExisting ev k (some (createMatch ev k.1 k.2 p)) p = _
    unfold stepExisting
    cases hsk : shouldSkipMatchUpdate (createMatch ev k.1 k.2 p) p
    · simp [hsk, applyPayload_createMatch]
    · simp [hsk]
  | some e =>
    cases hsk : shouldSkipMatchUpdate e p
    · have h1 : stepExisting ev k (some e) p = some (applyPayload e p) := by
        unfold stepExisting
        simp [hsk]
      rw [h1]
      unfold stepExisting
      cases hsk2 : shouldSkipMatchUpdate (applyPayload e p) p
      · simp [hsk2, applyPayload_applyPayload]
      · simp [hsk2]
    · have h1 : stepExisting ev k (some e) p = some e := by
        unfold stepExisting
        simp [hsk]
      rw [h1, h1]

/-- What one loop-body step does to the store at key `k`. -/
theorem stepRecord_fst_at (ev : Int) (k : Int × Int) (σ : MatchStore)
    (st : SaveStats) (r : InRecord) :
    (stepRecord ev (σ, st) r).1 k =
      if keyOf r = some k then stepExisting ev k (σ k) r.payload else σ k := by
  unfold stepRecord
  cases hk : keyOf r with
  | none => simp
  | some k2 =>
    by_cases hkk : k2 = k
    · subst hkk
      rw [if_pos rfl]
      unfold stepExisting
      cases hcur : σ k2 with
      | none => simp [hcur, storePut]
      | some e =>
        cases hsk : shouldSkipMatchUpdate e r.payload
        · simp [hcur, hsk, storePut]
        · simp [hcur, hsk]
    · have hkk2 : ¬ k = k2 := fun h => hkk h.symm
      rw [if_neg (by simpa using hkk)]
      cases hcur : σ k2 with
      | none => simp [hcur, storePut, hkk2]
      | some e =>
        cases hsk : shouldSkipMatchUpdate e r.payload
        · simp [hcur, hsk, storePut, hkk2]
        · simp [hcur, hsk]

/-- Reading the store at `k` after the batch loop equals folding the
per-key transition over the records, acting only on those whose logical
key is `k`. -/
theorem saveMatches_at_key (ev : Int) (k : Int × Int) :
    ∀ (rs : List InRecord) (σ : MatchStore) (st : SaveStats),
      ((rs.foldl (stepRecord ev) (σ, st)).1) k =
        rs.foldl
          (fun cur r =>
            if keyOf r = some k then stepExisting ev k cur r.payload else cur)
          (σ k) := by
  intro rs
  induction rs with
  | nil => intro σ st; rfl
  | cons r rs ih =>
    intro σ st
    have hpair := ih (stepRecord ev (σ, st) r).1 (stepRecord ev (σ, st) r).2
    rw [Prod.mk.eta] at hpair
    rw [List.foldl_cons, hpair, stepRecord_fst_at, List.foldl_cons]

/-- Folding the per-key transition ignores records with other keys. -/
theorem foldKey_eq_foldl_filter (ev : Int) (k : Int × Int) :
    ∀ (rs : List InRecord) (x : Option MatchRec),
      rs.foldl
        (fun cur r =>
          if keyOf r = some k then stepExisting ev k cur r.payload else cur) x =
      (rs.filter (fun r => keyOf r == some k)).foldl
        (fun cur r => stepExisting ev k cur r.payload) x := by
  intro rs
  induction rs with
  | nil => intro x; rfl
  | cons r rs ih =>
    intro x
    by_cases hk : keyOf r = some k
    · rw [List.foldl_cons, if_pos hk, List.filter_cons_of_pos (by simpa using hk),
        List.foldl_cons, ih]
    · rw [List.foldl_cons, if_neg hk, List.filter_cons_of_neg (by simpa using hk), ih]

/-- Record writing a real player into slot 1 of match (1,1). -/
def recA : InRecord :=
  { roundVal := some 1, numberVal := some 1,
    payload := { emptyPayload with player1ID := some (some 1) },
    raisesError := false }

/-- Record writing the TBD sentinel into slot 1 and a real player into
slot 2 of the same match (1,1): a stale draw snapshot of the same
logical key inside the same batch. -/
def recB : InRecord :=
  { roundVal := some 1, numberVal := some 1,
    payload := { emptyPayload with player1ID := some (some 376), player2ID := some (some 2) },
    raisesError := false }

/-- A store with no rows. -/
def emptyMatchStore : MatchStore := fun _ => none

/-- Claim C4 counterexample: a well-formed batch containing two records
for the same logical key is not idempotent.  On the first pass the stale
record recB overwrites the fresh row; on the second pass recA is applied
(changing a field) and recB is then blocked by the guard, so the stored
state after the second application differs from the state after the
first. -/
theorem save_matches_second_pass_changes_state :
    (saveMatches 100 (saveMatches 100 emptyMatchStore [recA, recB]).1
        [recA, recB]).1 (1, 1) ≠
      (saveMatches 100 emptyMatchStore [recA, recB]).1 (1, 1) := by
  decide

/-- Claim C4 (amended): for batches containing at most one record per
logical key, `save_matches` is idempotent: applying the same batch a
second time leaves the store unchanged at every key, and on the second
pass each record of the batch meets an existing stored row and is either
skipped by the guard or updates it with no field changes (in particular
nothing is created or failed on the second pass). -/
theorem save_matches_idempotent_on_distinct_keys
    (ev : Int) (σ : MatchStore) (rs : List InRecord) (k : Int × Int)
    (hcount : (rs.filter (fun r => keyOf r == some k)).length ≤ 1) :
    (saveMatches ev (saveMatches ev σ rs).1 rs).1 k =
      (saveMatches ev σ rs).1 k ∧
    (∀ r ∈ rs, keyOf r = some k →
      ∃ e, (saveMatches ev σ rs).1 k = some e ∧
        (shouldSkipMatchUpdate e r.payload = true ∨
          applyPayload e r.payload = e)) := by
  have h1 : (saveMatches ev σ rs).1 k =
      (rs.filter (fun r => keyOf r == some k)).foldl
        (fun cur r => stepExisting ev k cur r.payload) (σ k) := by
    unfold saveMatches
    rw [saveMatches_at_key, foldKey_eq_foldl_filter]
  have h2 : (saveMatches ev (saveMatches ev σ rs).1 rs).1 k =
      (rs.filter (fun r => keyOf r == some k)).foldl
        (fun cur r => stepExisting ev k cur r.payload)
        ((saveMatches ev σ rs).1 k) := by
    unfold saveMatches
    rw [saveMatches_at_key, foldKey_eq_foldl_filter]
  cases hF : rs.filter (fun r => keyOf r == some k) with
  | nil =>
    constructor
    · rw [h2, h1, hF]
      rfl
    · intro r hmem hkey
      exfalso
      have : r ∈ rs.filter (fun r => keyOf r == some k) :=
        List.mem_filter.mpr ⟨hmem, by simpa using hkey⟩
      rw [hF] at this
      simp at this
  | cons a l =>
    have hl : l = [] := by
      rw [hF] at hcount
      simp only [List.length_cons] at hcount
      have : l.length = 0 := Nat.le_zero.mp (Nat.lt_succ_iff.mp
        (Nat.lt_of_lt_of_le (Nat.lt_succ_of_le (Nat.le_refl _))
          (by simpa using hcount)))
      exact List.eq_nil_of_length_eq_zero this
    subst hl
    have hone : (saveMatches ev σ rs).1 k =
        stepExisting ev k (σ k) a.payload := by
      rw [h1, hF]
      rfl
    constructor
    · rw [h2, hF, List.foldl_cons, List.foldl_nil, hone, stepExisting_idem]
    · intro r hmem hkey
      have hra : r = a := by
        have : r ∈ rs.filter (fun r => keyOf r == some k) :=
          List.mem_filter.mpr ⟨hmem, by simpa using hkey⟩
        rw [hF] at this
        simpa using this
      subst hra
      rw [hone]
      unfold stepExisting
      cases hcur : σ k with
      | none =>
        exact ⟨createMatch ev k.1 k.2 r.payload, rfl,
          Or.inr (applyPayload_createMatch ev k.1 k.2 r.payload)⟩
      | some e0 =>
        cases hsk : shouldSkipMatchUpdate e0 r.payload
        · exact ⟨applyPayload e0 r.payload, by simp [hsk],
            Or.inr (applyPayload_applyPayload e0 r.payload)⟩
        · exact ⟨e0, by simp [hsk], Or.inl hsk⟩

/-- Witness for the amended claim C4: the single-record batch `[recA]`
applied twice to the empty store.  The second pass leaves the store
unchanged and meets an existing row that it updates with no field
changes. -/
theorem save_matches_idempotent_witness :
    (saveMatches 100 (saveMatches 100 emptyMatchStore [recA]).1 [recA]).1 (1, 1) =
      (saveMatches 100 emptyMatchStore [recA]).1 (1, 1) ∧
    ∃ e, (saveMatches 100 emptyMatchStore [recA]).1 (1, 1) = some e ∧
      (shouldSkipMatchUpdate e recA.payload = true ∨
        applyPayload e recA.payload = e) :=
  ⟨(save_matches_idempotent_on_distinct_keys 100 emptyMatchStore [recA] (1, 1)
      (by decide)).1,
   (save_matches_idempotent_on_distinct_keys 100 emptyMatchStore [recA] (1, 1)
      (by decide)).2 recA (by simp) (by decide)⟩

/-! ### Claim C5: batch atomicity on an unexpected error -/

/-- One loop-body step increments the skipped tally by at most one. -/
theorem stepRecord_skipped_le (ev : Int) (σ : MatchStore) (st : SaveStats)
    (r : InRecord) :
    (stepRecord ev (σ, st) r).2.skipped ≤ st.skipped + 1 := by
  unfold stepRecord
  cases hk : keyOf r with
  | none => simp
  | some k =>
    cases hcur : σ k with
    | none => simp [hcur]
    | some e =>
      cases hsk : shouldSkipMatchUpdate e r.payload
      · simp [hcur, hsk]
      · simp [hcur, hsk]

/-- If some record of the batch raises, the transactional loop ends in
the exceptional branch, carrying a tally whose skipped count is bounded
by the records seen. -/
theorem saveMatchesTxAux_error_of_raises (ev : Int) :
    ∀ (rs : List InRecord) (σ : MatchStore) (st : SaveStats),
      (∃ r ∈ rs, r.raisesError = true) →
      ∃ st2, saveMatchesTxAux ev σ st rs = .error st2 ∧
        st2.skipped ≤ st.skipped + rs.length := by
  intro rs
  induction rs with
  | nil =>
    intro σ st herr
    obtain ⟨r, hmem, _⟩ := herr
    exact absurd hmem (List.not_mem_nil r)
  | cons r rs ih =>
    intro σ st herr
    by_cases hr : r.raisesError = true
    · refine ⟨st, ?_, by simp⟩
      unfold saveMatchesTxAux
      rw [if_pos hr]
    · have htail : ∃ r2 ∈ rs, r2.raisesError = true := by
        obtain ⟨r2, hmem, hraise⟩ := herr
        rcases List.mem_cons.mp hmem with heq | hmem2
        · exact absurd (heq ▸ hraise) hr
        · exact ⟨r2, hmem2, hraise⟩
      obtain ⟨st2, hA, hle⟩ :=
        ih (stepRecord ev (σ, st) r).1 (stepRecord ev (σ, st) r).2 htail
      refine ⟨st2, ?_, ?_⟩
      · unfold saveMatchesTxAux
        rw [if_neg hr]
        exact hA
      · have hstep := stepRecord_skipped_le ev σ st r
        simp only [List.length_cons]
        omega

/-- Claim C5: if an unexpected error is raised while any record of the
batch is processed, `save_matches` leaves the pre-batch store unchanged
(the transaction rolls back), reports `created = 0`, `updated = 0` and
`failed` equal to the number of records not tallied as skipped, and
returns the tally normally instead of propagating the exception. -/
theorem save_matches_batch_atomic_on_error
    (ev : Int) (σ : MatchStore) (rs : List InRecord)
    (herr : ∃ r ∈ rs, r.raisesError = true) :
    (saveMatchesTx ev σ rs).1 = σ ∧
    (saveMatchesTx ev σ rs).2.created = 0 ∧
    (saveMatchesTx ev σ rs).2.updated = 0 ∧
    (saveMatchesTx ev σ rs).2.skipped + (saveMatchesTx ev σ rs).2.failed =
      rs.length := by
  obtain ⟨st2, hA, hle⟩ :=
    saveMatchesTxAux_error_of_raises ev rs σ initStats herr
  have hinit : initStats.skipped = 0 := rfl
  unfold saveMatchesTx
  rw [hA]
  refine ⟨rfl, rfl, rfl, ?_⟩
  show st2.skipped + (rs.length - st2.skipped) = rs.length
  omega

/-- A record that raises an unexpected exception while being processed. -/
def recErr : InRecord :=
  { roundVal := some 2, numberVal := some 3, payload := emptyPayload,
    raisesError := true }

/-- Witness for claim C5: a batch whose second record raises: the store
is returned unchanged and the tally reports no creations or updates. -/
theorem save_matches_batch_atomic_witness :
    (saveMatchesTx 100 emptyMatchStore [recA, recErr]).1 = emptyMatchStore ∧
    (saveMatchesTx 100 emptyMatchStore [recA, recErr]).2.created = 0 ∧
    (saveMatchesTx 100 emptyMatchStore [recA, recErr]).2.updated = 0 ∧
    (saveMatchesTx 100 emptyMatchStore [recA, recErr]).2.skipped +
      (saveMatchesTx 100 emptyMatchStore [recA, recErr]).2.failed = 2 :=
  save_matches_batch_atomic_on_error 100 emptyMatchStore [recA, recErr]
    ⟨recErr, by simp, rfl⟩

/-! ### The duplicate-match cleanup command
(`management/commands/cleanup_duplicate_matches.py`) -/

/-- Logical key of a stored match row: (Event, Round, Number). -/
def key3 (m : MatchRec) : Int × Int × Int :=
  (m.eventID, m.round, m.number)

/-- The storage id of the first row of an id-ordered queryset: the least
id of the group.  The command orders each duplicate group by `id` and
keeps element 0 of the relevant partition. -/
def minIdOf : List MatchRec → Int
  | [] => 0
  | [m] => m.id
  | m :: m2 :: ms => min m.id (minIdOf (m2 :: ms))

/-- Step 1 of the cleanup command, expressed as the survival predicate of
one stored row: its duplicate group (same Event, Round, Number) is
fetched; groups of size one are untouched; a group holding both real and
TBD rows keeps exactly its real rows; a group of several real rows keeps
the first in id order; a group of several TBD rows keeps the first in id
order. -/
def groupDecision (g : List MatchRec) (m : MatchRec) : Bool :=
  if g.length ≤ 1 then true
  else
    if 0 < (g.filter (fun m2 => !(matchHasTBDPlayer m2))).length &&
        0 < (g.filter (fun m2 => matchHasTBDPlayer m2)).length then
      !(matchHasTBDPlayer m)
    else if 1 < (g.filter (fun m2 => !(matchHasTBDPlayer m2))).length then
      m.id == minIdOf (g.filter (fun m2 => !(matchHasTBDPlayer m2)))
    else if 1 < (g.filter (fun m2 => matchHasTBDPlayer m2)).length then
      m.id == minIdOf (g.filter (fun m2 => matchHasTBDPlayer m2))
    else true

/-- Step 1 survival of one stored row: decide within its duplicate group
(all rows sharing its Event, Round, Number). -/
def survivesStep1 (σ : List MatchRec) (m : MatchRec) : Bool :=
  groupDecision (σ.filter (fun m2 => key3 m2 == key3 m)) m

/-- Step 1 of the cleanup command over the whole store. -/
def cleanupStep1 (σ : List MatchRec) : List MatchRec :=
  σ.filter (survivesStep1 σ)

/-- Step 2 of the cleanup command: delete every row with finished status
(3) that still carries a TBD player. -/
def cleanupStep2 (σ : List MatchRec) : List MatchRec :=
  σ.filter (fun m => !(m.status == some 3 && matchHasTBDPlayer m))

/-- Step 3 of the cleanup command on one row: an upcoming (status 0) TBD
match whose scheduled time lies more than six hours (360 minutes) in the
past is moved to finished status. -/
def step3Fix (now : Int) (m : MatchRec) : MatchRec :=
  if m.status == some 0 &&
      (match m.scheduledDate with
       | some d => decide (d < now - 360)
       | none => false) &&
      matchHasTBDPlayer m then
    { m with status := some 3 }
  else m

/-- Step 3 of the cleanup command over the whole store. -/
def cleanupStep3 (now : Int) (σ : List MatchRec) : List MatchRec :=
  σ.map (step3Fix now)

/-- The whole cleanup command: delete within duplicate groups, delete
finished TBD rows, then repair stale upcoming TBD rows. -/
def cleanupDuplicateMatches (now : Int) (σ : List MatchRec) : List MatchRec :=
  cleanupStep3 now (cleanupStep2 (cleanupStep1 σ))

/-! ### Claim C6: the Deduplicator postcondition -/

/-- Step 3 does not change the logical key of a row. -/
theorem key3_step3Fix (now : Int) (m : MatchRec) :
    key3 (step3Fix now m) = key3 m := by
  unfold step3Fix
  split <;> rfl

/-- Step 3 does not change the storage id of a row. -/
theorem id_step3Fix (now : Int) (m : MatchRec) :
    (step3Fix now m).id = m.id := by
  unfold step3Fix
  split <;> rfl

/-- Step 3 does not change whether a row carries a TBD player. -/
theorem tbd_step3Fix (now : Int) (m : MatchRec) :
    matchHasTBDPlayer (step3Fix now m) = matchHasTBDPlayer m := by
  unfold step3Fix
  split <;> rfl

/-- Filtering a mapped store by logical key commutes with step 3. -/
theorem filter_key_map_step3 (now : Int) (k : Int × Int × Int) :
    ∀ (l : List MatchRec),
      (l.map (step3Fix now)).filter (fun m => key3 m == k) =
        (l.filter (fun m => key3 m == k)).map (step3Fix now) := by
  intro l
  induction l with
  | nil => rfl
  | cons a l ih =>
    simp only [List.map_cons, List.filter_cons, key3_step3Fix]
    split
    · simp [ih]
    · simp [ih]

/-- A list of rows included in a store with pairwise distinct ids, all of
whose members carry one fixed id, has at most one member. -/
theorem length_le_one_of_const_id {q σ : List MatchRec} (hsub : q.Sublist σ)
    (hnd : (σ.map (fun m => m.id)).Nodup) (v : Int)
    (hall : ∀ m ∈ q, m.id = v) : q.length ≤ 1 := by
  have hqnd : (q.map (fun m => m.id)).Nodup :=
    hnd.sublist (hsub.map (fun m => m.id))
  match q, hall, hqnd with
  | [], _, _ => simp
  | [a], _, _ => simp
  | a :: b :: t, hall, hqnd =>
    exfalso
    have h1 : ¬ a.id ∈ ((b :: t).map (fun m => m.id)) :=
      (List.nodup_cons.mp (by simpa using hqnd)).1
    apply h1
    have hab : a.id = b.id := by
      rw [hall a (by simp), hall b (by simp)]
    rw [hab]
    exact List.mem_map_of_mem _ (List.mem_cons_self b t)

/-- The least id of a nonempty group is attained by one of its rows. -/
theorem minIdOf_attained :
    ∀ (l : List MatchRec), l ≠ [] → ∃ m ∈ l, m.id = minIdOf l
  | [], h => absurd rfl h
  | [a], _ => ⟨a, by simp, by simp [minIdOf]⟩
  | a :: b :: t, _ => by
    rcases le_total a.id (minIdOf (b :: t)) with h | h
    · exact ⟨a, by simp, by simp [minIdOf, min_eq_left h]⟩
    · obtain ⟨m, hmem, hid⟩ := minIdOf_attained (b :: t) (by simp)
      exact ⟨m, by simp [hmem], by simp [minIdOf, min_eq_right h, hid]⟩

/-- Splitting a list by a predicate preserves its length. -/
theorem length_filter_partition (p : MatchRec → Bool) :
    ∀ (l : List MatchRec),
      (l.filter p).length + (l.filter (fun a => !(p a))).length = l.length := by
  intro l
  induction l with
  | nil => rfl
  | cons a l ih =>
    cases hp : p a <;>
      simp [List.filter_cons, hp, Nat.add_right_comm, Nat.add_assoc, ih, Nat.succ_eq_add_one]
    · omega
    · omega

/-- Membership after steps 1 and 2, restricted to one logical key. -/
theorem mem_cleanup12_iff (σ : List MatchRec) (k : Int × Int × Int) (m : MatchRec) :
    m ∈ (cleanupStep2 (cleanupStep1 σ)).filter (fun m2 => key3 m2 == k) ↔
      (m ∈ σ ∧ survivesStep1 σ m = true ∧
        (m.status == some 3 && matchHasTBDPlayer m) = false ∧ key3 m = k) := by
  simp only [cleanupStep2, cleanupStep1, List.mem_filter, Bool.not_eq_true',
    beq_iff_eq]
  tauto
/-- Rows of a store with pairwise distinct ids are determined by their
id. -/
theorem mem_id_eq_unique {l : List MatchRec}
    (hnd : (l.map (fun m => m.id)).Nodup) :
    ∀ m ∈ l, ∀ m2 ∈ l, m.id = m2.id → m = m2 := by
  induction l with
  | nil =>
    intro m hm
    exact absurd hm (List.not_mem_nil m)
  | cons a t ih =>
    intro m hm m2 hm2 heq
    have hnd2 : a.id ∉ t.map (fun m => m.id) ∧
        (t.map (fun m => m.id)).Nodup := by
      rw [List.map_cons] at hnd
      exact List.nodup_cons.mp hnd
    rcases List.mem_cons.mp hm with rfl | hmt
    · rcases List.mem_cons.mp hm2 with rfl | hm2t
      · rfl
      · exfalso
        apply hnd2.1
        rw [heq]
        exact List.mem_map_of_mem _ hm2t
    · rcases List.mem_cons.mp hm2 with rfl | hm2t
      · exfalso
        apply hnd2.1
        rw [← heq]
        exact List.mem_map_of_mem _ hmt
      · exact ih hnd2.2 m hmt m2 hm2t heq

/-- Claim C6 (amended): after the cleanup sweep, a logical key can still
be shared, but only by sentinel-free rows: every post-sweep duplicate
group either has at most one row or consists solely of rows without the
TBD sentinel (a group holding two or more real rows next to a TBD row
keeps all its real rows).  For a pre-sweep group entirely free of the
sentinel, every surviving row is the one with the least storage id (the
first of the id-ordered queryset, there being no modification
timestamp), and at least one row survives; so such groups resolve to
exactly one record.  For a pre-sweep group consisting only of TBD rows,
every surviving row is again the least-id one, and that row survives
exactly when its status is not Finished: a Finished least-id TBD row is
deleted by the finished-TBD sweep, resolving the group to zero
records. -/
theorem cleanup_resolves_duplicate_groups (now : Int) (σ : List MatchRec)
    (hids : (σ.map (fun m => m.id)).Nodup) (k : Int × Int × Int) :
    (((cleanupDuplicateMatches now σ).filter (fun m => key3 m == k)).length ≤ 1 ∨
      (∀ m ∈ (cleanupDuplicateMatches now σ).filter (fun m => key3 m == k),
        matchHasTBDPlayer m = false)) ∧
    ((∀ m ∈ σ.filter (fun m2 => key3 m2 == k), matchHasTBDPlayer m = false) →
      (∀ m ∈ (cleanupDuplicateMatches now σ).filter (fun m => key3 m == k),
        m.id = minIdOf (σ.filter (fun m2 => key3 m2 == k))) ∧
      (σ.filter (fun m2 => key3 m2 == k) ≠ [] →
        (cleanupDuplicateMatches now σ).filter (fun m => key3 m == k) ≠ [])) ∧
    ((∀ m ∈ σ.filter (fun m2 => key3 m2 == k), matchHasTBDPlayer m = true) →
      (∀ m ∈ (cleanupDuplicateMatches now σ).filter (fun m => key3 m == k),
        m.id = minIdOf (σ.filter (fun m2 => key3 m2 == k))) ∧
      (∀ m0 ∈ σ.filter (fun m2 => key3 m2 == k),
        m0.id = minIdOf (σ.filter (fun m2 => key3 m2 == k)) →
        (m0.status = some 3 →
          (cleanupDuplicateMatches now σ).filter (fun m => key3 m == k) = []) ∧
        (m0.status ≠ some 3 →
          (cleanupDuplicateMatches now σ).filter (fun m => key3 m == k) ≠ []))) := by
  have hpg : (cleanupDuplicateMatches now σ).filter (fun m => key3 m == k) =
      ((cleanupStep2 (cleanupStep1 σ)).filter (fun m2 => key3 m2 == k)).map
        (step3Fix now) := by
    unfold cleanupDuplicateMatches cleanupStep3
    exact filter_key_map_step3 now k _
  have hqsub : ((cleanupStep2 (cleanupStep1 σ)).filter
      (fun m2 => key3 m2 == k)).Sublist σ :=
    ((List.filter_sublist _).trans (List.filter_sublist _)).trans
      (List.filter_sublist _)
  have hgnd : ((σ.filter (fun m2 => key3 m2 == k)).map
      (fun m => m.id)).Nodup :=
    hids.sublist (List.Sublist.map (fun m : MatchRec => m.id)
      (List.filter_sublist σ))
  have hqg : ∀ m ∈ (cleanupStep2 (cleanupStep1 σ)).filter
      (fun m2 => key3 m2 == k), m ∈ σ.filter (fun m2 => key3 m2 == k) := by
    intro m hm
    obtain ⟨h1, _, _, h4⟩ := (mem_cleanup12_iff σ k m).mp hm
    exact List.mem_filter.mpr ⟨h1, by simpa using h4⟩
  have hsurv : ∀ m ∈ (cleanupStep2 (cleanupStep1 σ)).filter
      (fun m2 => key3 m2 == k),
      groupDecision (σ.filter (fun m2 => key3 m2 == k)) m = true := by
    intro m hm
    obtain ⟨_, h2, _, h4⟩ := (mem_cleanup12_iff σ k m).mp hm
    rw [survivesStep1, h4] at h2
    exact h2
  refine ⟨?_, ?_, ?_⟩
  · by_cases hg1 : (σ.filter (fun m2 => key3 m2 == k)).length ≤ 1
    · left
      rw [hpg, List.length_map]
      cases hgc : σ.filter (fun m2 => key3 m2 == k) with
      | nil =>
        have hq : (cleanupStep2 (cleanupStep1 σ)).filter
            (fun m2 => key3 m2 == k) = [] := by
          refine List.eq_nil_iff_forall_not_mem.mpr (fun m hm => ?_)
          have := hqg m hm
          rw [hgc] at this
          simp at this
        rw [hq]
        simp
      | cons a t =>
        have ht : t = [] := by
          rw [hgc] at hg1
          simp only [List.length_cons] at hg1
          exact List.eq_nil_of_length_eq_zero (by omega)
        subst ht
        refine length_le_one_of_const_id hqsub hids a.id (fun m hm => ?_)
        have := hqg m hm
        rw [hgc] at this
        simp only [List.mem_singleton] at this
        rw [this]
    · by_cases hmx : (0 < ((σ.filter (fun m2 => key3 m2 == k)).filter
          (fun m2 => !(matchHasTBDPlayer m2))).length &&
          0 < ((σ.filter (fun m2 => key3 m2 == k)).filter
          (fun m2 => matchHasTBDPlayer m2)).length) = true
      · right
        intro m hm
        rw [hpg] at hm
        obtain ⟨m0, hm0, rfl⟩ := List.mem_map.mp hm
        rw [tbd_step3Fix]
        have hd := hsurv m0 hm0
        unfold groupDecision at hd
        rw [if_neg hg1, if_pos hmx] at hd
        simpa using hd
      · by_cases hr2 : 1 < ((σ.filter (fun m2 => key3 m2 == k)).filter
            (fun m2 => !(matchHasTBDPlayer m2))).length
        · left
          rw [hpg, List.length_map]
          refine length_le_one_of_const_id hqsub hids
            (minIdOf ((σ.filter (fun m2 => key3 m2 == k)).filter
              (fun m2 => !(matchHasTBDPlayer m2)))) (fun m hm => ?_)
          have hd := hsurv m hm
          unfold groupDecision at hd
          rw [if_neg hg1, if_neg hmx, if_pos hr2] at hd
          simpa using hd
        · by_cases ht2 : 1 < ((σ.filter (fun m2 => key3 m2 == k)).filter
              (fun m2 => matchHasTBDPlayer m2)).length
          · left
            rw [hpg, List.length_map]
            refine length_le_one_of_const_id hqsub hids
              (minIdOf ((σ.filter (fun m2 => key3 m2 == k)).filter
                (fun m2 => matchHasTBDPlayer m2))) (fun m hm => ?_)
            have hd := hsurv m hm
            unfold groupDecision at hd
            rw [if_neg hg1, if_neg hmx, if_neg hr2, if_pos ht2] at hd
            simpa using hd
          · exfalso
            have hpart : ((σ.filter (fun m2 => key3 m2 == k)).filter
                (fun m2 => matchHasTBDPlayer m2)).length +
                ((σ.filter (fun m2 => key3 m2 == k)).filter
                (fun m2 => !(matchHasTBDPlayer m2))).length =
                (σ.filter (fun m2 => key3 m2 == k)).length :=
              length_filter_partition _ _
            apply hmx
            have h1 : 0 < ((σ.filter (fun m2 => key3 m2 == k)).filter
                (fun m2 => !(matchHasTBDPlayer m2))).length := by omega
            have h2 : 0 < ((σ.filter (fun m2 => key3 m2 == k)).filter
                (fun m2 => matchHasTBDPlayer m2)).length := by omega
            rw [decide_eq_true h1, decide_eq_true h2]
            rfl
  · intro hallreal
    have hrg : (σ.filter (fun m2 => key3 m2 == k)).filter
        (fun m2 => !(matchHasTBDPlayer m2)) = σ.filter (fun m2 => key3 m2 == k) :=
      List.filter_eq_self.mpr (fun a ha => by simp [hallreal a ha])
    have htg : (σ.filter (fun m2 => key3 m2 == k)).filter
        (fun m2 => matchHasTBDPlayer m2) = [] :=
      List.filter_eq_nil_iff.mpr (fun a ha => by simp [hallreal a ha])
    constructor
    · intro m hm
      rw [hpg] at hm
      obtain ⟨m0, hm0, rfl⟩ := List.mem_map.mp hm
      rw [id_step3Fix]
      have hd := hsurv m0 hm0
      unfold groupDecision at hd
      by_cases hg1 : (σ.filter (fun m2 => key3 m2 == k)).length ≤ 1
      · have hm0g := hqg m0 hm0
        cases hgc : σ.filter (fun m2 => key3 m2 == k) with
        | nil =>
          rw [hgc] at hm0g
          simp at hm0g
        | cons a t =>
          have ht : t = [] := by
            rw [hgc] at hg1
            simp only [List.length_cons] at hg1
            exact List.eq_nil_of_length_eq_zero (by omega)
          subst ht
          rw [hgc] at hm0g
          simp only [List.mem_singleton] at hm0g
          rw [hm0g]
          simp [minIdOf]
      · have hmxf : ¬ ((0 < ((σ.filter (fun m2 => key3 m2 == k)).filter
            (fun m2 => !(matchHasTBDPlayer m2))).length &&
            0 < ((σ.filter (fun m2 => key3 m2 == k)).filter
            (fun m2 => matchHasTBDPlayer m2)).length) = true) := by
          rw [htg]
          simp
        have hr2 : 1 < ((σ.filter (fun m2 => key3 m2 == k)).filter
            (fun m2 => !(matchHasTBDPlayer m2))).length := by
          rw [hrg]
          omega
        rw [if_neg hg1, if_neg hmxf, if_pos hr2, hrg] at hd
        simpa using hd
    · intro hgne
      obtain ⟨m0, hm0g, hid⟩ := minIdOf_attained _ hgne
      have hm0k : m0 ∈ σ ∧ key3 m0 = k := by
        have := List.mem_filter.mp hm0g
        exact ⟨this.1, by simpa using this.2⟩
      have hsv : survivesStep1 σ m0 = true := by
        rw [survivesStep1, hm0k.2]
        unfold groupDecision
        by_cases hg1 : (σ.filter (fun m2 => key3 m2 == k)).length ≤ 1
        · rw [if_pos hg1]
        · have hmxf : ¬ ((0 < ((σ.filter (fun m2 => key3 m2 == k)).filter
              (fun m2 => !(matchHasTBDPlayer m2))).length &&
              0 < ((σ.filter (fun m2 => key3 m2 == k)).filter
              (fun m2 => matchHasTBDPlayer m2)).length) = true) := by
            rw [htg]
            simp
          have hr2 : 1 < ((σ.filter (fun m2 => key3 m2 == k)).filter
              (fun m2 => !(matchHasTBDPlayer m2))).length := by
            rw [hrg]
            omega
          rw [if_neg hg1, if_neg hmxf, if_pos hr2, hrg, hid]
          simp
      have hs2 : (m0.status == some 3 && matchHasTBDPlayer m0) = false := by
        rw [hallreal m0 hm0g]
        simp
      have hm0q : m0 ∈ (cleanupStep2 (cleanupStep1 σ)).filter
          (fun m2 => key3 m2 == k) :=
        (mem_cleanup12_iff σ k m0).mpr ⟨hm0k.1, hsv, hs2, hm0k.2⟩
      rw [hpg]
      exact List.ne_nil_of_mem (List.mem_map_of_mem _ hm0q)
  · intro halltbd
    have hrealnil : (σ.filter (fun m2 => key3 m2 == k)).filter
        (fun m2 => !(matchHasTBDPlayer m2)) = [] :=
      List.filter_eq_nil_iff.mpr (fun a ha => by simp [halltbd a ha])
    have htbdg : (σ.filter (fun m2 => key3 m2 == k)).filter
        (fun m2 => matchHasTBDPlayer m2) = σ.filter (fun m2 => key3 m2 == k) :=
      List.filter_eq_self.mpr (fun a ha => halltbd a ha)
    have hsurvq : ∀ m ∈ (cleanupStep2 (cleanupStep1 σ)).filter
        (fun m2 => key3 m2 == k),
        m.id = minIdOf (σ.filter (fun m2 => key3 m2 == k)) := by
      intro m hm
      have hd := hsurv m hm
      unfold groupDecision at hd
      by_cases hg1 : (σ.filter (fun m2 => key3 m2 == k)).length ≤ 1
      · have hmg := hqg m hm
        cases hgc : σ.filter (fun m2 => key3 m2 == k) with
        | nil =>
          rw [hgc] at hmg
          simp at hmg
        | cons a t =>
          have ht : t = [] := by
            rw [hgc] at hg1
            simp only [List.length_cons] at hg1
            exact List.eq_nil_of_length_eq_zero (by omega)
          subst ht
          rw [hgc] at hmg
          simp only [List.mem_singleton] at hmg
          rw [hmg]
          simp [minIdOf]
      · have hmxf : ¬ ((0 < ((σ.filter (fun m2 => key3 m2 == k)).filter
            (fun m2 => !(matchHasTBDPlayer m2))).length &&
            0 < ((σ.filter (fun m2 => key3 m2 == k)).filter
            (fun m2 => matchHasTBDPlayer m2)).length) = true) := by
          rw [hrealnil]
          simp
        have hrf : ¬ 1 < ((σ.filter (fun m2 => key3 m2 == k)).filter
            (fun m2 => !(matchHasTBDPlayer m2))).length := by
          rw [hrealnil]
          simp
        have ht2 : 1 < ((σ.filter (fun m2 => key3 m2 == k)).filter
            (fun m2 => matchHasTBDPlayer m2)).length := by
          rw [htbdg]
          omega
        rw [if_neg hg1, if_neg hmxf, if_neg hrf, if_pos ht2, htbdg] at hd
        simpa using hd
    constructor
    · intro m hm
      rw [hpg] at hm
      obtain ⟨m0, hm0, rfl⟩ := List.mem_map.mp hm
      rw [id_step3Fix]
      exact hsurvq m0 hm0
    · intro m0 hm0g hmin
      have hm0k : m0 ∈ σ ∧ key3 m0 = k := by
        have := List.mem_filter.mp hm0g
        exact ⟨this.1, by simpa using this.2⟩
      constructor
      · intro hst3
        have hq : (cleanupStep2 (cleanupStep1 σ)).filter
            (fun m2 => key3 m2 == k) = [] := by
          refine List.eq_nil_iff_forall_not_mem.mpr (fun m hm => ?_)
          obtain ⟨hmσ, _, hs2, hkey⟩ := (mem_cleanup12_iff σ k m).mp hm
          have hmg : m ∈ σ.filter (fun m2 => key3 m2 == k) :=
            List.mem_filter.mpr ⟨hmσ, by simpa using hkey⟩
          have hmid : m.id = minIdOf (σ.filter (fun m2 => key3 m2 == k)) :=
            hsurvq m hm
          have hmeq : m = m0 :=
            mem_id_eq_unique hgnd m hmg m0 hm0g (hmid.trans hmin.symm)
          rw [hmeq, hst3, halltbd m0 hm0g] at hs2
          simp at hs2
        rw [hpg, hq]
        rfl
      · intro hst3
        have hsv : survivesStep1 σ m0 = true := by
          rw [survivesStep1, hm0k.2]
          unfold groupDecision
          by_cases hg1 : (σ.filter (fun m2 => key3 m2 == k)).length ≤ 1
          · rw [if_pos hg1]
          · have hmxf : ¬ ((0 < ((σ.filter (fun m2 => key3 m2 == k)).filter
                (fun m2 => !(matchHasTBDPlayer m2))).length &&
                0 < ((σ.filter (fun m2 => key3 m2 == k)).filter
                (fun m2 => matchHasTBDPlayer m2)).length) = true) := by
              rw [hrealnil]
              simp
            have hrf : ¬ 1 < ((σ.filter (fun m2 => key3 m2 == k)).filter
                (fun m2 => !(matchHasTBDPlayer m2))).length := by
              rw [hrealnil]
              simp
            have ht2 : 1 < ((σ.filter (fun m2 => key3 m2 == k)).filter
                (fun m2 => matchHasTBDPlayer m2)).length := by
              rw [htbdg]
              omega
            rw [if_neg hg1, if_neg hmxf, if_neg hrf, if_pos ht2, htbdg, hmin]
            simp
        have hs2 : (m0.status == some 3 && matchHasTBDPlayer m0) = false := by
          rw [beq_eq_false_iff_ne.mpr hst3]
          rfl
        have hm0q : m0 ∈ (cleanupStep2 (cleanupStep1 σ)).filter
            (fun m2 => key3 m2 == k) :=
          (mem_cleanup12_iff σ k m0).mpr ⟨hm0k.1, hsv, hs2, hm0k.2⟩
        rw [hpg]
        exact List.ne_nil_of_mem (List.mem_map_of_mem _ hm0q)

/-- Finished real-player row, storage id 1. -/
def dupReal1 : MatchRec :=
  { id := 1, eventID := 100, round := 1, number := 1,
    player1ID := some 11, player2ID := some 22,
    score1 := some 6, score2 := some 3,
    winnerID := some 11, status := some 3, scheduledDate := none }

/-- Second finished real-player row with the same logical key, id 2. -/
def dupReal2 : MatchRec :=
  { id := 2, eventID := 100, round := 1, number := 1,
    player1ID := some 11, player2ID := some 22,
    score1 := some 6, score2 := some 4,
    winnerID := some 11, status := some 3, scheduledDate := none }

/-- TBD row with the same logical key, id 3. -/
def dupTbd : MatchRec :=
  { id := 3, eventID := 100, round := 1, number := 1,
    player1ID := some 376, player2ID := some 22,
    score1 := none, score2 := none,
    winnerID := none, status := some 0, scheduledDate := none }

/-- Claim C6 counterexample: a duplicate group holding two real rows and
one TBD row is not resolved to one record: the sweep deletes only the TBD
row and keeps both real rows, so two stored records still share the
logical key (100, 1, 1) after the Deduplicator runs. -/
theorem cleanup_can_leave_duplicate_keys :
    ((cleanupDuplicateMatches 0 [dupReal1, dupReal2, dupTbd]).filter
      (fun m => key3 m == (100, 1, 1))).length = 2 := by
  decide

/-- Finished TBD row with the least storage id of its group. -/
def tbdFinished : MatchRec :=
  { id := 1, eventID := 100, round := 1, number := 1,
    player1ID := some 376, player2ID := some 22,
    score1 := some 4, score2 := some 0,
    winnerID := none, status := some 3, scheduledDate := none }

/-- Upcoming TBD row with the same logical key, id 2. -/
def tbdUpcoming : MatchRec :=
  { id := 2, eventID := 100, round := 1, number := 1,
    player1ID := some 376, player2ID := none,
    score1 := none, score2 := none,
    winnerID := none, status := some 0, scheduledDate := none }

/-- Witness for the amended claim C6: a group of two real rows collapses
to the row with the least storage id; an all-TBD group whose least-id
row is Finished resolves to zero records; an all-TBD group whose
least-id row is not Finished keeps a record. -/
theorem cleanup_resolves_witness :
    (∀ m ∈ (cleanupDuplicateMatches 0 [dupReal1, dupReal2]).filter
        (fun m => key3 m == (100, 1, 1)),
      m.id = minIdOf ([dupReal1, dupReal2].filter
        (fun m2 => key3 m2 == (100, 1, 1)))) ∧
    (cleanupDuplicateMatches 0 [dupReal1, dupReal2]).filter
      (fun m => key3 m == (100, 1, 1)) ≠ [] ∧
    (cleanupDuplicateMatches 0 [tbdFinished, tbdUpcoming]).filter
      (fun m => key3 m == (100, 1, 1)) = [] ∧
    (cleanupDuplicateMatches 0 [tbdUpcoming, dupTbd]).filter
      (fun m => key3 m == (100, 1, 1)) ≠ [] :=
  ⟨((cleanup_resolves_duplicate_groups 0 [dupReal1, dupReal2] (by decide)
      (100, 1, 1)).2.1 (by decide)).1,
   ((cleanup_resolves_duplicate_groups 0 [dupReal1, dupReal2] (by decide)
      (100, 1, 1)).2.1 (by decide)).2 (by decide),
   (((cleanup_resolves_duplicate_groups 0 [tbdFinished, tbdUpcoming]
      (by decide) (100, 1, 1)).2.2 (by decide)).2 tbdFinished (by decide)
      (by decide)).1 rfl,
   (((cleanup_resolves_duplicate_groups 0 [tbdUpcoming, dupTbd]
      (by decide) (100, 1, 1)).2.2 (by decide)).2 tbdUpcoming (by decide)
      (by decide)).2 (by decide)⟩

/-! ### The Activity Detector
(`auto_live_monitor.py`, `_has_active_matches`, lines 139-182) -/

/-- Stored `Event` row (the columns the detector reads); start and end
dates are day numbers. -/
structure EventRec where
  id : Int
  startDate : Option Int
  endDate : Option Int
  deriving DecidableEq

/-- Calendar day of a timestamp in minutes. -/
def dayOf (t : Int) : Int :=
  t.fdiv 1440

/-- SQL comparison `column <= bound` on a nullable column: a null value
never satisfies the filter. -/
def optLe (a : Option Int) (b : Int) : Bool :=
  match a with
  | some v => decide (v ≤ b)
  | none => false

/-- SQL comparison `column >= bound` on a nullable column. -/
def optGe (a : Option Int) (b : Int) : Bool :=
  match a with
  | some v => decide (b ≤ v)
  | none => false

/-- The tournament filter of `_has_active_matches`:
`StartDate <= today + 1 day and EndDate >= today - 1 day`. -/
def eventBracketsNow (now : Int) (e : EventRec) : Bool :=
  optLe e.startDate (dayOf now + 1) && optGe e.endDate (dayOf now - 1)

/-- The per-match test of `_has_active_matches`: scheduled on the current
day, status in {0, 1, 2}, and
`timedelta(minutes=-30) <= now - scheduled <= timedelta(hours=4)`. -/
def matchTriggersActive (now : Int) (m : MatchRec) : Bool :=
  match m.scheduledDate with
  | some d =>
    decide (dayOf d = dayOf now) &&
    (m.status == some 0 || m.status == some 1 || m.status == some 2) &&
    decide (-30 ≤ now - d) && decide (now - d ≤ 240)
  | none => false

/-- `_has_active_matches`: true when some tournament whose date range
brackets today (one day of tolerance) has a match passing the per-match
test. -/
def hasActiveMatches (now : Int) (events : List EventRec)
    (ms : List MatchRec) : Bool :=
  events.any (fun e =>
    eventBracketsNow now e &&
    ms.any (fun m => m.eventID == e.id && matchTriggersActive now m))

/-- The detector verdict as claim C7 states it: some bracketing
tournament has a match whose scheduled time lies in the window, or a
match already in Running/OnBreak status.  This definition follows the
wording of the claim, to be compared with `hasActiveMatches`. -/
def claimedActiveC7 (now : Int) (events : List EventRec)
    (ms : List MatchRec) : Bool :=
  events.any (fun e =>
    eventBracketsNow now e &&
    ms.any (fun m =>
      m.eventID == e.id &&
      ((match m.scheduledDate with
        | some d => decide (-30 ≤ now - d) && decide (now - d ≤ 240)
        | none => false) ||
       (m.status == some 1 || m.status == some 2))))

/-- Ten in the morning of day 1000. -/
def activeNow : Int := 1000 * 1440 + 600

/-- Tournament whose date range brackets day 1000. -/
def activeEvent : EventRec :=
  { id := 7, startDate := some 999, endDate := some 1001 }

/-- Running match of that tournament scheduled five hours before
`activeNow`, on the same day. -/
def runningStaleMatch : MatchRec :=
  { id := 1, eventID := 7, round := 1, number := 1,
    player1ID := some 11, player2ID := some 22,
    score1 := some 3, score2 := some 2,
    winnerID := none, status := some 1,
    scheduledDate := some (1000 * 1440 + 300) }

/-- Claim C7 counterexample: a match already in Running status whose
scheduled time lies five hours in the past is active according to the
claim (Running alone suffices) but inactive according to the source,
which requires the scheduled-time window for every status. -/
theorem detector_differs_from_claim :
    claimedActiveC7 activeNow [activeEvent] [runningStaleMatch] = true ∧
    hasActiveMatches activeNow [activeEvent] [runningStaleMatch] = false := by
  decide

/-- The per-match condition in the claim language of the amendment:
scheduled on the current UTC day, status Scheduled/Running/OnBreak, and
scheduled time within [now - 4 hours, now + 30 minutes]. -/
def amendedMatchWindow (now : Int) (m : MatchRec) : Bool :=
  match m.scheduledDate with
  | some d =>
    decide (dayOf d = dayOf now) &&
    (m.status == some 0 || m.status == some 1 || m.status == some 2) &&
    decide (d ≤ now + 30) && decide (now - 240 ≤ d)
  | none => false

/-- Claim C7 (amended): the detector returns true exactly when some
stored tournament whose date range brackets today (one day of tolerance
on each side) has an associated match that is scheduled on the current
UTC day, has status Scheduled, Running or OnBreak, and whose scheduled
time lies within [now - 4 hours, now + 30 minutes].  Running/OnBreak
status alone does not make the verdict true, and a match scheduled 10
minutes from now counts only if that instant falls on the current day.
The detector is a pure read of the store. -/
theorem detector_characterization_amended (now : Int) (events : List EventRec)
    (ms : List MatchRec) :
    hasActiveMatches now events ms =
      events.any (fun e =>
        eventBracketsNow now e &&
        ms.any (fun m => m.eventID == e.id && amendedMatchWindow now m)) := by
  have h : ∀ m, matchTriggersActive now m = amendedMatchWindow now m := by
    intro m
    unfold matchTriggersActive amendedMatchWindow
    cases m.scheduledDate with
    | none => rfl
    | some d =>
      have h1 : (-30 ≤ now - d) ↔ (d ≤ now + 30) := by omega
      have h2 : (now - d ≤ 240) ↔ (now - 240 ≤ d) := by omega
      show (decide (dayOf d = dayOf now) &&
          (m.status == some 0 || m.status == some 1 || m.status == some 2) &&
          decide (-30 ≤ now - d) && decide (now - d ≤ 240)) =
        (decide (dayOf d = dayOf now) &&
          (m.status == some 0 || m.status == some 1 || m.status == some 2) &&
          decide (d ≤ now + 30) && decide (now - 240 ≤ d))
      rw [decide_eq_decide.mpr h1, decide_eq_decide.mpr h2]
  unfold hasActiveMatches
  simp only [h]

/-! ### Claim C8: winner/score consistency diagnostics
(`data_savers.py` lines 332-377 and `fix_score_inconsistencies.py`
lines 133-182) -/

/-- The sync-path check `_validate_match_score_consistency` as the
predicate deciding whether an inconsistency is reported.  The function
only logs: the auto-correction in the source is commented out, so it
modifies neither the payload nor the store.  It fires only for status 3
with both scores and the winner present, when the winner id disagrees
with the strictly higher score. -/
def validateFlagsInconsistency (c : MatchPayload) : Bool :=
  match pget c.status, pget c.score1, pget c.score2, pget c.winnerID with
  | some 3, some s1, some s2, some w =>
    (decide (s2 < s1) && !(some w == pget c.player1ID)) ||
    (decide (s1 < s2) && !(some w == pget c.player2ID))
  | _, _, _, _ => false

/-- The three repairs the fix command can suggest. -/
inductive FixAction where
  | setWinnerToPlayer1
  | setWinnerToPlayer2
  | clearWinner
  deriving DecidableEq

/-- `_analyze_match_consistency` on a row of the command's queryset
(Finished, both scores, winner and both player ids non-null, not 0-0):
the suggested fix, or `none` when the row is consistent.  The tie branch
tests the Python truthiness of `WinnerID`, so a stored winner id of 0 is
not reported. -/
def analyzeMatchConsistency (s1 s2 w p1 p2 : Int) : Option FixAction :=
  if decide (s2 < s1) && !(w == p1) then some FixAction.setWinnerToPlayer1
  else if decide (s1 < s2) && !(w == p2) then some FixAction.setWinnerToPlayer2
  else if s1 == s2 && !(w == 0) then some FixAction.clearWinner
  else none

/-- The consistency check as claim C8 states it: flags winner/score
disagreement and also every tied-score match that names a winner.  This
definition follows the wording of the claim, to be compared with the
sync-path check `validateFlagsInconsistency`. -/
def claimedFlagC8 (c : MatchPayload) : Bool :=
  match pget c.status, pget c.score1, pget c.score2, pget c.winnerID with
  | some 3, some s1, some s2, some w =>
    (decide (s2 < s1) && !(some w == pget c.player1ID)) ||
    (decide (s1 < s2) && !(some w == pget c.player2ID)) ||
    decide (s1 = s2)
  | _, _, _, _ => false

/-- Finished payload with a 4-4 tie that still names a winner. -/
def tiePayload : MatchPayload :=
  { player1ID := some (some 7), player2ID := some (some 9),
    score1 := some (some 4), score2 := some (some 4),
    winnerID := some (some 7), status := some (some 3),
    scheduledDate := none }

/-- Claim C8 counterexample: a Finished 4-4 payload naming a winner is an
inconsistency under the claim (a tied score must not name a winner), but
the sync-path check does not flag it: its two branches both require a
strictly higher score. -/
theorem consistency_check_misses_ties :
    claimedFlagC8 tiePayload = true ∧
    validateFlagsInconsistency tiePayload = false := by
  decide

/-- The synthetic scenario payload of claim C8: Finished, Score1=5,
Score2=3, Winner=Player2=22 while Player1=11 leads 5-3. -/
def fiveThreePayload : MatchPayload :=
  { player1ID := some (some 11), player2ID := some (some 22),
    score1 := some (some 5), score2 := some (some 3),
    winnerID := some (some 22), status := some (some 3),
    scheduledDate := none }

/-- Claim C8 (amended): both diagnostics are report-only (they are pure
predicates over a record), but the tie rule lives only in the separately
invoked repair command.  The sync-path check flags an inspected Finished
payload exactly when the winner id disagrees with a strictly higher
score (ties are never flagged there); the repair command's analyzer
reports an issue exactly on such disagreement or on a tied score naming
a non-zero winner id, and for the synthetic 5-3 match with
Winner=Player2 it reports exactly one issue, citing Player1 as the
score-implied winner; the sync-path check flags that payload as well. -/
theorem consistency_checks_amended :
    (∀ (c : MatchPayload) (s1 s2 w : Int),
      pget c.status = some 3 → pget c.score1 = some s1 →
      pget c.score2 = some s2 → pget c.winnerID = some w →
      (validateFlagsInconsistency c = true ↔
        ((s2 < s1 ∧ pget c.player1ID ≠ some w) ∨
         (s1 < s2 ∧ pget c.player2ID ≠ some w)))) ∧
    (∀ s1 s2 w p1 p2 : Int,
      (analyzeMatchConsistency s1 s2 w p1 p2).isSome = true ↔
        ((s2 < s1 ∧ w ≠ p1) ∨ (s1 < s2 ∧ w ≠ p2) ∨ (s1 = s2 ∧ w ≠ 0))) ∧
    analyzeMatchConsistency 5 3 22 11 22 = some FixAction.setWinnerToPlayer1 ∧
    validateFlagsInconsistency fiveThreePayload = true := by
  refine ⟨?_, ?_, by decide, by decide⟩
  · intro c s1 s2 w hst hs1 hs2 hw
    unfold validateFlagsInconsistency
    rw [hst, hs1, hs2, hw]
    show ((decide (s2 < s1) && !(some w == pget c.player1ID)) ||
      (decide (s1 < s2) && !(some w == pget c.player2ID))) = true ↔ _
    simp only [Bool.or_eq_true, Bool.and_eq_true, decide_eq_true_eq,
      Bool.not_eq_true', beq_eq_false_iff_ne]
    constructor
    · rintro (⟨h, hne⟩ | ⟨h, hne⟩)
      · exact Or.inl ⟨h, fun he => hne he.symm⟩
      · exact Or.inr ⟨h, fun he => hne he.symm⟩
    · rintro (⟨h, hne⟩ | ⟨h, hne⟩)
      · exact Or.inl ⟨h, fun he => hne he.symm⟩
      · exact Or.inr ⟨h, fun he => hne he.symm⟩
  · intro s1 s2 w p1 p2
    unfold analyzeMatchConsistency
    by_cases h1 : (decide (s2 < s1) && !(w == p1)) = true
    · rw [if_pos h1]
      simp only [Bool.and_eq_true, decide_eq_true_eq, Bool.not_eq_true',
        beq_eq_false_iff_ne] at h1
      simp [h1]
    · rw [if_neg h1]
      simp only [Bool.and_eq_true, decide_eq_true_eq, Bool.not_eq_true',
        beq_eq_false_iff_ne, not_and] at h1
      by_cases h2 : (decide (s1 < s2) && !(w == p2)) = true
      · rw [if_pos h2]
        simp only [Bool.and_eq_true, decide_eq_true_eq, Bool.not_eq_true',
          beq_eq_false_iff_ne] at h2
        simp [h2]
      · rw [if_neg h2]
        simp only [Bool.and_eq_true, decide_eq_true_eq, Bool.not_eq_true',
          beq_eq_false_iff_ne, not_and] at h2
        by_cases h3 : (s1 == s2 && !(w == 0)) = true
        · rw [if_pos h3]
          simp only [Bool.and_eq_true, beq_iff_eq, Bool.not_eq_true',
            beq_eq_false_iff_ne] at h3
          simp [h3]
        · rw [if_neg h3]
          simp only [Bool.and_eq_true, beq_iff_eq, Bool.not_eq_true',
            beq_eq_false_iff_ne, not_and] at h3
          simp only [Option.isSome_none, Bool.false_eq_true, false_iff]
          rintro (⟨h, hne⟩ | ⟨h, hne⟩ | ⟨h, hne⟩)
          · exact h1 h hne
          · exact h2 h hne
          · exact h3 h hne

/-- Witness for the amended claim C8 at the synthetic 5-3 payload. -/
theorem consistency_checks_amended_witness :
    (validateFlagsInconsistency fiveThreePayload = true ↔
      (((3:Int) < 5 ∧ pget fiveThreePayload.player1ID ≠ some 22) ∨
       ((5:Int) < 3 ∧ pget fiveThreePayload.player2ID ≠ some 22))) ∧
    ((analyzeMatchConsistency 5 3 22 11 22).isSome = true ↔
      (((3:Int) < 5 ∧ (22:Int) ≠ 11) ∨ ((5:Int) < 3 ∧ (22:Int) ≠ 22) ∨
       ((5:Int) = 3 ∧ (22:Int) ≠ 0))) :=
  ⟨consistency_checks_amended.1 fiveThreePayload 5 3 22 rfl rfl rfl rfl,
   consistency_checks_amended.2.1 5 3 22 11 22⟩

/-! ### The Field Mapper (`data_mappers.py`)

The cleaner functions of `DataCleaner` and the generic
`prepare_model_data`.  Raw API values are loosely typed; Python floats
are modelled as rationals, and the string parsers of the Python builtins
(`float()`, `strptime('%Y-%m-%d')`, `datetime.fromisoformat`) are
modelled on their documented core grammar (sign and digits with one
decimal point; zero-padded date and time components; an optional
`+HH:MM`/`-HH:MM` offset), without whitespace trimming, exponents or
fractional seconds. -/

/-- A loosely typed value of one raw API record field. -/
inductive Value where
  | vnull
  | vint (z : Int)
  | vfloat (q : Rat)
  | vstr (s : String)
  | vbool (b : Bool)
  deriving DecidableEq

/-- Truncation toward zero: the behaviour of Python `int(float)`. -/
def ratTrunc (q : Rat) : Int :=
  q.num.tdiv (q.den : Int)

/-- Value of a run of decimal digits. -/
def digitsVal (l : List Char) : Nat :=
  l.foldl (fun a c => a * 10 + (c.toNat - 48)) 0

/-- Splitting a character list on one separator character. -/
def splitOnChar (c : Char) : List Char → List (List Char)
  | [] => [[]]
  | x :: xs =>
    if x = c then [] :: splitOnChar c xs
    else
      match splitOnChar c xs with
      | [] => [[x]]
      | g :: gs => (x :: g) :: gs

/-- Modelled core of the Python `float()` string parser: optional sign,
then digits with at most one decimal point and at least one digit. -/
def parsePyFloat (s : String) : Option Rat :=
  let signed : Bool → Nat → Int := fun neg n =>
    if neg then -(n : Int) else (n : Int)
  let core : Bool → List Char → Option Rat := fun neg l =>
    match splitOnChar '.' l with
    | [ip] =>
      if 0 < ip.length && ip.all Char.isDigit then
        some (mkRat (signed neg (digitsVal ip)) 1)
      else none
    | [ip, fp] =>
      if (0 < ip.length || 0 < fp.length) && ip.all Char.isDigit &&
          fp.all Char.isDigit then
        some (mkRat
          (signed neg (digitsVal ip * 10 ^ fp.length + digitsVal fp))
          (10 ^ fp.length))
      else none
    | _ => none
  match s.data with
  | '-' :: rest => core true rest
  | '+' :: rest => core false rest
  | l => core false l

/-- `DataCleaner.clean_int`: `None` and the empty string give `None`;
ints (and bools, which are ints in Python) pass through; everything else
goes through `float()` and truncation, failures giving `None`. -/
def cleanInt (v : Value) : Option Int :=
  match v with
  | .vnull => none
  | .vint z => some z
  | .vbool b => some (if b then 1 else 0)
  | .vfloat q => some (ratTrunc q)
  | .vstr s => if s = "" then none else (parsePyFloat s).map ratTrunc

/-- `DataCleaner.clean_float`. -/
def cleanFloat (v : Value) : Option Rat :=
  match v with
  | .vnull => none
  | .vint z => some (z : Rat)
  | .vbool b => some (if b then 1 else 0)
  | .vfloat q => some q
  | .vstr s => if s = "" then none else parsePyFloat s

/-- Gregorian leap year. -/
def isLeap (y : Int) : Bool :=
  (y % 4 == 0 && !(y % 100 == 0)) || y % 400 == 0

/-- Days in one month. -/
def daysInMonth (y m : Int) : Int :=
  if m = 2 then (if isLeap y then 29 else 28)
  else if m = 4 ∨ m = 6 ∨ m = 9 ∨ m = 11 then 30
  else 31

/-- `strptime(date_str, '%Y-%m-%d')` modelled: three dash-separated
digit runs (year up to four digits, month and day up to two), forming a
valid calendar date of year at least 1. -/
def parseDateYMD (s : String) : Option (Int × Int × Int) :=
  match splitOnChar '-' s.data with
  | [ys, ms2, ds] =>
    if 0 < ys.length && ys.length ≤ 4 && ys.all Char.isDigit &&
        0 < ms2.length && ms2.length ≤ 2 && ms2.all Char.isDigit &&
        0 < ds.length && ds.length ≤ 2 && ds.all Char.isDigit then
      let y : Int := (digitsVal ys : Nat)
      let mo : Int := (digitsVal ms2 : Nat)
      let d : Int := (digitsVal ds : Nat)
      if 1 ≤ y && 1 ≤ mo && mo ≤ 12 && 1 ≤ d && d ≤ daysInMonth y mo then
        some (y, mo, d)
      else none
    else none
  | _ => none

/-- `DataCleaner.clean_date`: strings only; the empty string and the
sentinel `0000-00-00` give `None`; otherwise `strptime('%Y-%m-%d')`. -/
def cleanDate (v : Value) : Option (Int × Int × Int) :=
  match v with
  | .vstr s => if s = "" || s = "0000-00-00" then none else parseDateYMD s
  | _ => none

/-- `datetime_str.replace('Z', '+00:00')` on the character list: every
occurrence of `Z` becomes `+00:00`. -/
def replaceZ : List Char → List Char
  | [] => []
  | c :: rest =>
    if c = 'Z' then '+' :: '0' :: '0' :: ':' :: '0' :: '0' :: replaceZ rest
    else c :: replaceZ rest

/-- Break a time string at the first offset sign, returning the time
digits and, when present, the sign (`true` = negative) and what follows. -/
def breakAtSign : List Char → List Char × Option (Bool × List Char)
  | [] => ([], none)
  | c :: rest =>
    if c = '+' then ([], some (false, rest))
    else if c = '-' then ([], some (true, rest))
    else
      match breakAtSign rest with
      | (a, b) => (c :: a, b)

/-- Break an ISO string at the first date/time separator (`T` or a
space). -/
def breakAtTimeSep : List Char → List Char × Option (List Char)
  | [] => ([], none)
  | c :: rest =>
    if c = 'T' ∨ c = ' ' then ([], some rest)
    else
      match breakAtTimeSep rest with
      | (a, b) => (c :: a, b)

/-- Parse `HH:MM` or `HH:MM:SS` (two digits each) to seconds since
midnight. -/
def parseTimeHMS (l : List Char) : Option Int :=
  let comp : List Char → Int → Option Int := fun cs bound =>
    if cs.length = 2 && cs.all Char.isDigit &&
        decide ((digitsVal cs : Int) < bound) then
      some (digitsVal cs : Nat)
    else none
  match splitOnChar ':' l with
  | [h, mi] =>
    match comp h 24, comp mi 60 with
    | some hv, some mv => some (hv * 3600 + mv * 60)
    | _, _ => none
  | [h, mi, sec] =>
    match comp h 24, comp mi 60, comp sec 60 with
    | some hv, some mv, some sv => some (hv * 3600 + mv * 60 + sv)
    | _, _, _ => none
  | _ => none

/-- Parse a `HH:MM` utc-offset body to seconds. -/
def parseOffsetHM (l : List Char) : Option Int :=
  match splitOnChar ':' l with
  | [oh, om] =>
    if oh.length = 2 && oh.all Char.isDigit && om.length = 2 &&
        om.all Char.isDigit && decide ((digitsVal oh : Int) < 24) &&
        decide ((digitsVal om : Int) < 60) then
      some ((digitsVal oh : Nat) * 3600 + (digitsVal om : Nat) * 60)
    else none
  | _ => none

/-- Days before the first of a month in a non-leap year. -/
def monthOffset : Int → Int
  | 1 => 0
  | 2 => 31
  | 3 => 59
  | 4 => 90
  | 5 => 120
  | 6 => 151
  | 7 => 181
  | 8 => 212
  | 9 => 243
  | 10 => 273
  | 11 => 304
  | 12 => 334
  | _ => 0

/-- Ordinal day number of a calendar date (proleptic Gregorian). -/
def dateOrdinal (y m d : Int) : Int :=
  365 * (y - 1) + (y - 1).fdiv 4 - (y - 1).fdiv 100 + (y - 1).fdiv 400 +
    monthOffset m + (if 2 < m && isLeap y then 1 else 0) + (d - 1)

/-- Seconds of a naive timestamp on the ordinal-day axis. -/
def naiveSeconds (y m d tod : Int) : Int :=
  dateOrdinal y m d * 86400 + tod

/-- Modelled core of `datetime.fromisoformat`: a date, optionally
followed by a time and an optional `+HH:MM`/`-HH:MM` offset.  Returns
the naive seconds and the offset in seconds when one is present. -/
def parseIsoDatetime (l : List Char) : Option (Int × Option Int) :=
  match breakAtTimeSep l with
  | (datePart, rest) =>
    match parseDateYMD (String.mk datePart) with
    | none => none
    | some (y, mo, d) =>
      match rest with
      | none => some (naiveSeconds y mo d 0, none)
      | some timePart =>
        match breakAtSign timePart with
        | (tpart, off) =>
          match parseTimeHMS tpart with
          | none => none
          | some tod =>
            match off with
            | none => some (naiveSeconds y mo d tod, none)
            | some (negOff, offPart) =>
              match parseOffsetHM offPart with
              | none => none
              | some osec =>
                some (naiveSeconds y mo d tod,
                  some (if negOff then -osec else osec))

/-- `DataCleaner.clean_datetime`: strings only; `Z` is first replaced by
`+00:00` everywhere; an aware timestamp is shifted to UTC by its offset
and a naive timestamp is taken as UTC unchanged.  The result is the UTC
instant in seconds. -/
def cleanDatetime (v : Value) : Option Int :=
  match v with
  | .vstr s =>
    if s = "" then none
    else
      match parseIsoDatetime (replaceZ s.data) with
      | some (t, off) => some (t - off.getD 0)
      | none => none
  | _ => none

/-- Lower-cased character list of a string. -/
def strLower (s : String) : List Char :=
  s.data.map Char.toLower

/-- `DataCleaner.clean_boolean`: strings are tested against the truthy
tokens case-insensitively, `None` stays `None`, and any other value is
passed through Python `bool()`. -/
def cleanBoolean (v : Value) : Option Bool :=
  match v with
  | .vstr s =>
    some (strLower s == "true".data || strLower s == "1".data ||
      strLower s == "t".data || strLower s == "y".data ||
      strLower s == "yes".data)
  | .vnull => none
  | .vint z => some (decide (z ≠ 0))
  | .vfloat q => some (decide (q ≠ 0))
  | .vbool b => some b

/-- Model field types handled by `_clean_field_value`.  Primary keys and
relations are cleaned to `None` (they are handled separately). -/
inductive FieldType where
  | intField
  | floatField
  | dateField
  | datetimeField
  | boolField
  | charField
  | relationField
  deriving DecidableEq

/-- A cleaned, typed value. -/
inductive Cleaned where
  | cint (z : Int)
  | cfloat (q : Rat)
  | cdate (d : Int × Int × Int)
  | cdatetime (t : Int)
  | cbool (b : Bool)
  | cstr (s : String)
  deriving DecidableEq

/-- Python `str(value)` for the values of the embedding. -/
def pyStr (v : Value) : String :=
  match v with
  | .vstr s => s
  | .vint z => toString z
  | .vbool b => if b then "True" else "False"
  | .vfloat q => toString q
  | .vnull => "None"

/-- `ModelDataMapper._clean_field_value`: dispatch on the model field
type. -/
def cleanFieldValue (ft : FieldType) (v : Value) : Option Cleaned :=
  match ft with
  | .dateField => (cleanDate v).map Cleaned.cdate
  | .datetimeField => (cleanDatetime v).map Cleaned.cdatetime
  | .intField => (cleanInt v).map Cleaned.cint
  | .floatField => (cleanFloat v).map Cleaned.cfloat
  | .boolField => (cleanBoolean v).map Cleaned.cbool
  | .charField =>
    match v with
    | .vnull => none
    | v2 => some (Cleaned.cstr (pyStr v2))
  | .relationField => none

/-- The model-side configuration of the mapper: the model's concrete
fields with their types, and the API-name to model-name mapping table
(`API_FIELD_MAPPINGS`). -/
structure ModelSchema where
  fields : List (String × FieldType)
  mapping : List (String × String)

/-- `ModelDataMapper._get_model_field_name` together with the type
lookup: an explicitly mapped name wins if it is a model field (otherwise
the API field is dropped with a warning); an unmapped API key is used
directly when it is a model field. -/
def resolveField (schema : ModelSchema) (apiKey : String) :
    Option (String × FieldType) :=
  match schema.mapping.lookup apiKey with
  | some mapped =>
    match schema.fields.lookup mapped with
    | some ft => some (mapped, ft)
    | none => none
  | none =>
    match schema.fields.lookup apiKey with
    | some ft => some (apiKey, ft)
    | none => none

/-- The prepared-defaults dictionary produced by `prepare_model_data`:
`none` = field absent, `some none` = field present with value `None`. -/
def PreparedDict : Type := String → Option (Option Cleaned)

/-- The empty prepared dictionary. -/
def emptyPrepared : PreparedDict := fun _ => none

/-- Dictionary insertion. -/
def insertPrepared (d : PreparedDict) (k : String) (v : Option Cleaned) :
    PreparedDict :=
  fun k2 => if k2 = k then some v else d k2

/-- The body of the `prepare_model_data` loop for one API field: resolve
the model field name, clean the value, and keep the field when the
cleaned value is usable or the raw value was an explicit null
(`if cleaned_value is not None or api_value is None`). -/
def processApiField (schema : ModelSchema) (d : PreparedDict)
    (kv : String × Value) : PreparedDict :=
  match resolveField schema kv.1 with
  | none => d
  | some (tgt, ft) =>
    if (cleanFieldValue ft kv.2).isSome || kv.2 == Value.vnull then
      insertPrepared d tgt (cleanFieldValue ft kv.2)
    else d

/-- `prepare_model_data`: fold the per-field step over the raw record. -/
def prepareModelData (schema : ModelSchema) (raw : List (String × Value)) :
    PreparedDict :=
  raw.foldl (processApiField schema) emptyPrepared

/-! ### Claims C9 and C10: Field Mapper conversion and null handling -/

/-- The replacement distributes over concatenation. -/
theorem replaceZ_append (a b : List Char) :
    replaceZ (a ++ b) = replaceZ a ++ replaceZ b := by
  induction a with
  | nil => rfl
  | cons c a ih =>
    by_cases hc : c = 'Z'
    · simp [replaceZ, hc, ih]
    · simp [replaceZ, hc, ih]

/-- The replacement leaves a string without `Z` unchanged. -/
theorem replaceZ_of_not_mem {l : List Char} (h : ¬ 'Z' ∈ l) :
    replaceZ l = l := by
  induction l with
  | nil => rfl
  | cons c l ih =>
    have hc : ¬ c = 'Z' := fun he => h (by simp [he])
    simp [replaceZ, hc, ih (fun hm => h (by simp [hm]))]

/-- A string built from a nonempty character list is not the empty
string. -/
theorem stringMk_ne_empty {l : List Char} (h : l ≠ []) :
    String.mk l ≠ "" := by
  intro he
  exact h (by simpa using congrArg String.data he)

/-- Evaluation of `clean_datetime` on a nonempty character list. -/
theorem cleanDatetime_mk {l : List Char} (h : l ≠ []) :
    cleanDatetime (Value.vstr (String.mk l)) =
      match parseIsoDatetime (replaceZ l) with
      | some (t, off) => some (t - off.getD 0)
      | none => none := by
  unfold cleanDatetime
  show (if String.mk l = "" then none
    else match parseIsoDatetime (replaceZ (String.mk l).data) with
      | some (t, off) => some (t - off.getD 0)
      | none => none) = _
  rw [if_neg (stringMk_ne_empty h)]

/-- Preparing a record touches one model field only through the raw
entries that resolve to it: an unconvertible value elsewhere never
disturbs it. -/
theorem prepare_local_aux (schema : ModelSchema) (tgt : String) :
    ∀ (raw : List (String × Value)) (d1 d2 : PreparedDict),
      d1 tgt = d2 tgt →
      (raw.foldl (processApiField schema) d1) tgt =
        ((raw.filter (fun kv =>
          (resolveField schema kv.1).map Prod.fst == some tgt)).foldl
          (processApiField schema) d2) tgt := by
  intro raw
  induction raw with
  | nil => intro d1 d2 h; exact h
  | cons kv raw ih =>
    intro d1 d2 h
    rw [List.foldl_cons]
    cases hres : resolveField schema kv.1 with
    | none =>
      rw [List.filter_cons_of_neg (by rw [hres]; simp)]
      apply ih
      unfold processApiField
      simp only [hres]
      exact h
    | some tf =>
      obtain ⟨t2, ft⟩ := tf
      by_cases ht : t2 = tgt
      · subst ht
        rw [List.filter_cons_of_pos (by rw [hres]; simp), List.foldl_cons]
        apply ih
        unfold processApiField
        simp only [hres]
        by_cases hinc : ((cleanFieldValue ft kv.2).isSome ||
            kv.2 == Value.vnull) = true
        · rw [if_pos hinc, if_pos hinc]
          unfold insertPrepared
          simp
        · rw [if_neg hinc, if_neg hinc]
          exact h
      · rw [List.filter_cons_of_neg (by rw [hres]; simp [ht])]
        apply ih
        unfold processApiField
        simp only [hres]
        by_cases hinc : ((cleanFieldValue ft kv.2).isSome ||
            kv.2 == Value.vnull) = true
        · rw [if_pos hinc]
          unfold insertPrepared
          rw [if_neg (fun he => ht he.symm)]
          exact h
        · rw [if_neg hinc]
          exact h

/-- Preparing a single raw field that resolves to a model field. -/
theorem prepare_single (schema : ModelSchema) (k : String) (v : Value)
    (tgt : String) (ft : FieldType)
    (hres : resolveField schema k = some (tgt, ft)) :
    prepareModelData schema [(k, v)] tgt =
      if ((cleanFieldValue ft v).isSome || v == Value.vnull) = true then
        some (cleanFieldValue ft v)
      else none := by
  show (processApiField schema emptyPrepared (k, v)) tgt = _
  unfold processApiField
  simp only [hres]
  by_cases hinc : ((cleanFieldValue ft v).isSome || v == Value.vnull) = true
  · rw [if_pos hinc, if_pos hinc]
    unfold insertPrepared
    simp
  · rw [if_neg hinc, if_neg hinc]
    rfl

/-- Every field type cleans an explicit null to `None`. -/
theorem cleanFieldValue_vnull (ft : FieldType) :
    cleanFieldValue ft Value.vnull = none := by
  cases ft <;> rfl

/-- Claim C9: the Field Mapper conversion rules.  Integer fields pass
ints through and truncate floats and numeric strings toward zero; date
fields reject the empty string and the sentinel `0000-00-00` and accept
`YYYY-MM-DD` via the parser; timestamps treat a trailing `Z` as
`+00:00` and take naive timestamps as UTC; boolean strings are true
exactly for the truthy tokens, case-insensitively; a non-null value
that fails conversion is dropped from the prepared payload, and one
field's conversion result never disturbs any other field of the same
record. -/
theorem field_mapper_conversion_rules :
    (∀ z : Int, cleanInt (Value.vint z) = some z) ∧
    (∀ q : Rat, cleanInt (Value.vfloat q) = some (ratTrunc q)) ∧
    (∀ (s : String) (q : Rat), s ≠ "" → parsePyFloat s = some q →
      cleanInt (Value.vstr s) = some (ratTrunc q)) ∧
    cleanDate (Value.vstr "0000-00-00") = none ∧
    (∀ s : String, s ≠ "" → s ≠ "0000-00-00" →
      cleanDate (Value.vstr s) = parseDateYMD s) ∧
    (∀ cs : List Char, ¬ 'Z' ∈ cs →
      cleanDatetime (Value.vstr (String.mk (cs ++ ['Z']))) =
        cleanDatetime (Value.vstr (String.mk (cs ++ "+00:00".data)))) ∧
    (∀ (cs : List Char) (t : Int), ¬ 'Z' ∈ cs →
      parseIsoDatetime cs = some (t, none) →
      cleanDatetime (Value.vstr (String.mk cs)) = some t) ∧
    (∀ s : String, cleanBoolean (Value.vstr s) = some true ↔
      strLower s ∈ ["true".data, "1".data, "t".data, "y".data, "yes".data]) ∧
    (∀ (schema : ModelSchema) (k : String) (v : Value) (tgt : String)
        (ft : FieldType), resolveField schema k = some (tgt, ft) →
      v ≠ Value.vnull → cleanFieldValue ft v = none →
      prepareModelData schema [(k, v)] tgt = none) ∧
    (∀ (schema : ModelSchema) (raw : List (String × Value)) (tgt : String),
      prepareModelData schema raw tgt =
        prepareModelData schema
          (raw.filter (fun kv =>
            (resolveField schema kv.1).map Prod.fst == some tgt)) tgt) := by
  refine ⟨fun z => rfl, fun q => rfl, ?_, rfl, ?_, ?_, ?_, ?_, ?_, ?_⟩
  · intro s q hs hq
    show (if s = "" then none else (parsePyFloat s).map ratTrunc) = _
    rw [if_neg hs, hq]
    rfl
  · intro s hs1 hs2
    have hd : cleanDate (Value.vstr s) =
        if s = "" || s = "0000-00-00" then none else parseDateYMD s := rfl
    rw [hd, if_neg (by simp [hs1, hs2])]
  · intro cs hz
    have h1 : replaceZ (cs ++ ['Z']) = cs ++ "+00:00".data := by
      rw [replaceZ_append, replaceZ_of_not_mem hz]
      rfl
    have h2 : replaceZ (cs ++ "+00:00".data) = cs ++ "+00:00".data := by
      rw [replaceZ_append, replaceZ_of_not_mem hz]
      rfl
    rw [cleanDatetime_mk (by simp), cleanDatetime_mk (by simp), h1, h2]
  · intro cs t hz hp
    have hne : cs ≠ [] := by
      intro h
      rw [h] at hp
      simp only [show parseIsoDatetime [] = none from rfl] at hp
      exact Option.noConfusion hp
    rw [cleanDatetime_mk hne, replaceZ_of_not_mem hz, hp]
    simp
  · intro s
    unfold cleanBoolean
    simp only [Option.some.injEq, List.mem_cons, List.not_mem_nil, or_false,
      Bool.or_eq_true, beq_iff_eq]
    tauto
  · intro schema k v tgt ft hres hv hclean
    rw [prepare_single schema k v tgt ft hres, if_neg ?_]
    rw [hclean]
    simp only [Option.isSome_none, Bool.false_or]
    intro he
    exact hv (by simpa using he)
  · intro schema raw tgt
    exact prepare_local_aux schema tgt raw emptyPrepared emptyPrepared rfl

/-- A small model schema in the shape of `MatchesOfAnEvent`: concrete
fields with types and the `ID -> api_match_id` mapping entry. -/
def sampleSchema : ModelSchema :=
  { fields := [("Round", FieldType.intField), ("Player1ID", FieldType.intField),
      ("api_match_id", FieldType.intField),
      ("ScheduledDate", FieldType.datetimeField)],
    mapping := [("ID", "api_match_id")] }

/-- Witness for claim C9 at concrete inputs: a numeric string, a date
string, a trailing-Z timestamp, a naive timestamp and an unconvertible
int field that is dropped. -/
theorem field_mapper_conversion_rules_witness :
    cleanInt (Value.vstr "42") = some (ratTrunc 42) ∧
    cleanDate (Value.vstr "2024-03-05") = parseDateYMD "2024-03-05" ∧
    cleanDatetime (Value.vstr (String.mk ("2024-03-05T10:30:00".data ++ ['Z']))) =
      cleanDatetime
        (Value.vstr (String.mk ("2024-03-05T10:30:00".data ++ "+00:00".data))) ∧
    cleanDatetime (Value.vstr (String.mk "2024-03-05T10:30:00".data)) =
      some (naiveSeconds 2024 3 5 37800) ∧
    prepareModelData sampleSchema [("Round", Value.vstr "abc")] "Round" = none :=
  ⟨field_mapper_conversion_rules.2.2.1 "42" 42 (by decide) (by decide),
   field_mapper_conversion_rules.2.2.2.2.1 "2024-03-05" (by decide) (by decide),
   field_mapper_conversion_rules.2.2.2.2.2.1 "2024-03-05T10:30:00".data (by decide),
   field_mapper_conversion_rules.2.2.2.2.2.2.1 "2024-03-05T10:30:00".data
     (naiveSeconds 2024 3 5 37800) (by decide) (by decide),
   field_mapper_conversion_rules.2.2.2.2.2.2.2.2.1 sampleSchema "Round"
     (Value.vstr "abc") "Round" FieldType.intField (by decide) (by decide)
     (by decide)⟩

/-- Claim C10: explicit nulls are written through.  Every field type
cleans `None` to `None`; a raw field with value `None` that resolves to
a model field appears in the prepared payload with value null (so the
update overwrites the stored value); only a non-null value failing
conversion is omitted; and the guard's placeholder test counts only the
sentinel id 376 as a placeholder, so a payload with `Player1ID` null
passes rule 1 unless the other slot carries 376. -/
theorem explicit_nulls_written_through :
    (∀ ft : FieldType, cleanFieldValue ft Value.vnull = none) ∧
    (∀ (schema : ModelSchema) (k tgt : String) (ft : FieldType),
      resolveField schema k = some (tgt, ft) →
      prepareModelData schema [(k, Value.vnull)] tgt = some none) ∧
    (∀ (schema : ModelSchema) (k : String) (v : Value) (tgt : String)
        (ft : FieldType), resolveField schema k = some (tgt, ft) →
      v ≠ Value.vnull → cleanFieldValue ft v = none →
      prepareModelData schema [(k, v)] tgt = none) ∧
    (∀ c : MatchPayload, newHasTBD c = true ↔
      (pget c.player1ID = some 376 ∨ pget c.player2ID = some 376)) ∧
    (∀ c : MatchPayload, c.player1ID = some none →
      newHasTBD c = (pget c.player2ID == some 376)) := by
  refine ⟨cleanFieldValue_vnull, ?_, ?_, ?_, ?_⟩
  · intro schema k tgt ft hres
    rw [prepare_single schema k Value.vnull tgt ft hres,
      if_pos (by simp), cleanFieldValue_vnull]
  · intro schema k v tgt ft hres hv hclean
    rw [prepare_single schema k v tgt ft hres, if_neg ?_]
    rw [hclean]
    simp only [Option.isSome_none, Bool.false_or]
    intro he
    exact hv (by simpa using he)
  · intro c
    unfold newHasTBD
    simp
  · intro c hc
    show (pget c.player1ID == some 376 || pget c.player2ID == some 376) = _
    have h1 : pget c.player1ID = none := by rw [pget, hc]; rfl
    rw [h1]
    simp

/-- A payload erasing `Player1ID` to null while filling `Player2ID`. -/
def nullP1Payload : MatchPayload :=
  { emptyPayload with player1ID := some none, player2ID := some (some 5) }

/-- Witness for claim C10: a null `Player1ID` raw field is written
through as null, an unconvertible timestamp is dropped, and a payload
with a null participant passes the placeholder test. -/
theorem explicit_nulls_written_through_witness :
    prepareModelData sampleSchema [("Player1ID", Value.vnull)] "Player1ID" =
      some none ∧
    prepareModelData sampleSchema [("ScheduledDate", Value.vstr "garbage")]
      "ScheduledDate" = none ∧
    newHasTBD nullP1Payload = (pget nullP1Payload.player2ID == some 376) :=
  ⟨explicit_nulls_written_through.2.1 sampleSchema "Player1ID" "Player1ID"
     FieldType.intField (by decide),
   explicit_nulls_written_through.2.2.1 sampleSchema "ScheduledDate"
     (Value.vstr "garbage") "ScheduledDate" FieldType.datetimeField (by decide)
     (by decide) (by decide),
   explicit_nulls_written_through.2.2.2.2 nullP1Payload rfl⟩
